import Mathlib

/-! Memory-patching and hook-installation engine.

A shallow embedding of `native/src/base/lowlevel.hpp`, `native/src/base/lowlevel.c`,
`native/src/base/asm_utils.h` and `native/src/core/zygisk/lowlevel_inject.cpp`.

* Machine words (`uintptr_t`, `size_t`, `uint64_t`) are natural numbers with
  explicit reduction modulo `2 ^ 64`.
* Memory is a byte-addressed map; `mem_read64` / `mem_write64` are the
  little-endian 8-byte load and store.
* The operating system is an environment: the `n`-th protection request of a
  run is answered by `k n`, the error number of that request (`0` = granted).
* Memory barriers and fences do not change the sequential state and are
  embedded as no-ops (they are noted at the place they occur).
* A mapping request is answered by an `MmapOutcome`, an unmapping request by an
  error number, a vectorized transfer by the value `syscall()` returns for it.
* The cache flush is embedded as the list of instructions it issues.
-/

namespace Magisk

/-! ## Machine words -/

/-- The modulus of `uintptr_t` / `size_t` / `uint64_t` on the 64-bit targets. -/
def WORD : Nat := 2 ^ 64

/-- Unsigned 64-bit addition. -/
def add64 (a b : Nat) : Nat := (a + b) % WORD

/-- Unsigned 64-bit subtraction (wraps around). -/
def sub64 (a b : Nat) : Nat := (a % WORD + WORD - b % WORD) % WORD

/-- Unsigned 64-bit bitwise complement, the C operator `~`. -/
def not64 (a : Nat) : Nat := WORD - 1 - a % WORD

/-! ## Protection flags of `<sys/mman.h>` -/

def PROT_READ : Nat := 1
def PROT_WRITE : Nat := 2
def PROT_EXEC : Nat := 4

/-! ## Machine state and the kernel -/

/-- One `mprotect` request as it reaches the kernel. -/
structure MprotectCall where
  addr : Nat
  len : Nat
  prot : Nat
deriving DecidableEq, Repr

/-- The sequential machine state the engine acts on. -/
structure Machine where
  /-- byte-addressed memory -/
  mem : Nat → Nat
  /-- protection flags of every byte address -/
  prot : Nat → Nat
  /-- the C library's `errno` -/
  errno : Int
  /-- the protection requests issued so far, oldest first -/
  calls : List MprotectCall

/-- The kernel's answers: `k n` is the error number of the `n`-th protection
request of the run, `0` meaning the request is granted. -/
abbrev Kernel := Nat → Nat

/-- The C library entry point `syscall(__NR_mprotect, addr, len, prot)`: the
request is logged; when granted the bytes `[addr, addr + len)` take the new
flags and `0` is returned, otherwise `-1` is returned and `errno` is set to the
kernel's error number. -/
def syscall_mprotect (k : Kernel) (s : Machine) (addr len prot : Nat) : Int × Machine :=
  let e := k s.calls.length
  let log := s.calls ++ [⟨addr, len, prot⟩]
  if e = 0 then
    (0, { s with prot := fun a => if addr ≤ a ∧ a < addr + len then prot else s.prot a,
                 calls := log })
  else
    (-1, { s with errno := (e : Int), calls := log })

/-! ## `lowlevel.hpp` -/

/-- `mem_read64`: the little-endian 8-byte load at `addr`. -/
def mem_read64 (m : Nat → Nat) (addr : Nat) : Nat :=
  m addr % 256 + (m (addr + 1) % 256) * 256 ^ 1 + (m (addr + 2) % 256) * 256 ^ 2
    + (m (addr + 3) % 256) * 256 ^ 3 + (m (addr + 4) % 256) * 256 ^ 4
    + (m (addr + 5) % 256) * 256 ^ 5 + (m (addr + 6) % 256) * 256 ^ 6
    + (m (addr + 7) % 256) * 256 ^ 7

/-- `mem_write64`: the little-endian 8-byte store of `value` at `addr`. -/
def mem_write64 (m : Nat → Nat) (addr value : Nat) : Nat → Nat :=
  fun a => if addr ≤ a ∧ a < addr + 8 then (value / 256 ^ (a - addr)) % 256 else m a

/-- `sys_mprotect`: the raw request, its result narrowed to `int`. -/
def sys_mprotect (k : Kernel) (s : Machine) (addr len prot : Nat) : Int × Machine :=
  syscall_mprotect k s addr len prot

/-- `page_align_down`: `addr & ~(get_page_size() - 1)`, the page size `P` being
what `get_page_size` reports. -/
def page_align_down (P addr : Nat) : Nat := addr &&& not64 (sub64 P 1)

/-- `page_align_up`: `(a + page_size - 1) & ~(page_size - 1)`. -/
def page_align_up (P addr : Nat) : Nat :=
  sub64 (add64 addr P) 1 &&& not64 (sub64 P 1)

/-- `asm_atomic_cas_ptr` (`asm_utils.h`), the builtin
`__sync_bool_compare_and_swap` on a pointer-sized cell: the cell is replaced by
`desired` and `1` returned when it holds `expected`, otherwise the cell is left
alone and `0` returned. -/
def asm_atomic_cas_ptr (m : Nat → Nat) (ptr expected desired : Nat) : Int × (Nat → Nat) :=
  if mem_read64 m ptr = expected then (1, mem_write64 m ptr desired) else (0, m)

/-! ## `lowlevel.c` -/

/-- `lowlevel_mprotect`: the raw request; a negative result `r` stores `-r`
into `errno` and yields `-1`, anything else yields `0`. -/
def lowlevel_mprotect (k : Kernel) (s : Machine) (addr len prot : Nat) : Int × Machine :=
  let (result, s1) := syscall_mprotect k s addr len prot
  if result < 0 then (-1, { s1 with errno := -result }) else (0, s1)

/-- `lowlevel_hook_function`, with `P` the value of `lowlevel_getpagesize()`.
A null `original_addr` is `0`. -/
def lowlevel_hook_function (P : Nat) (k : Kernel) (s : Machine)
    (target_addr hook_addr original_addr : Nat) : Int × Machine :=
  let page_size := P
  let page := target_addr &&& not64 (sub64 page_size 1)
  -- Make memory writable
  let (ret, s1) := lowlevel_mprotect k s page page_size (PROT_READ ||| PROT_WRITE ||| PROT_EXEC)
  if ret ≠ 0 then (-1, s1)
  else
    -- Save original value
    let s2 : Machine :=
      if original_addr ≠ 0 then
        { s1 with mem := mem_write64 s1.mem original_addr (mem_read64 s1.mem target_addr) }
      else s1
    -- Write hook address (the barrier that follows is a no-op here)
    let s3 : Machine := { s2 with mem := mem_write64 s2.mem target_addr hook_addr }
    -- Restore memory protection
    let (_, s4) := lowlevel_mprotect k s3 page page_size (PROT_READ ||| PROT_EXEC)
    (0, s4)

/-! ## `lowlevel_inject.cpp` -/

/-- `hook_plt_entry_lowlevel`, with `P` the value of `get_page_size()`.
A null `original_func` is `0`. -/
def hook_plt_entry_lowlevel (P : Nat) (k : Kernel) (s : Machine)
    (plt_addr hook_func original_func : Nat) : Bool × Machine :=
  -- Align to page boundary
  let page := page_align_down P plt_addr
  let page_size := P
  -- Make page writable using direct syscall
  let (ret, s1) := sys_mprotect k s page page_size (PROT_READ ||| PROT_WRITE ||| PROT_EXEC)
  if ret ≠ 0 then (false, s1)
  else
    -- Read original value if requested
    let s2 : Machine :=
      if original_func ≠ 0 then
        { s1 with mem := mem_write64 s1.mem original_func (mem_read64 s1.mem plt_addr) }
      else s1
    -- Write new address (between two memory barriers)
    let s3 : Machine := { s2 with mem := mem_write64 s2.mem plt_addr hook_func }
    -- Restore original protection
    let (_, s4) := sys_mprotect k s3 page page_size (PROT_READ ||| PROT_EXEC)
    (true, s4)

/-- The record `GOTBackup`. -/
structure GOTBackup where
  address : Nat
  original_value : Nat
deriving DecidableEq, Repr

/-- `GOTBackup::backup`: records the entry and the word it holds. -/
def GOTBackup.backup (s : Machine) (got_entry : Nat) : Bool × GOTBackup :=
  (true, { address := got_entry, original_value := mem_read64 s.mem got_entry })

/-- `GOTBackup::restore`, with `P` the value of `get_page_size()`. The results
of both protection requests are discarded, as in the source. -/
def GOTBackup.restore (P : Nat) (k : Kernel) (s : Machine) (b : GOTBackup) : Bool × Machine :=
  if b.address = 0 then (false, s)
  else
    let page := page_align_down P b.address
    let page_size := P
    let (_, s1) := sys_mprotect k s page page_size (PROT_READ ||| PROT_WRITE ||| PROT_EXEC)
    let s2 : Machine := { s1 with mem := mem_write64 s1.mem b.address b.original_value }
    let (_, s3) := sys_mprotect k s2 page page_size (PROT_READ ||| PROT_EXEC)
    (true, s3)

/-- The class `ScopedHook`. -/
structure ScopedHook where
  backup_ : GOTBackup
  installed_ : Bool

/-- `ScopedHook::install`. -/
def ScopedHook.install (P : Nat) (k : Kernel) (s : Machine) (h : ScopedHook)
    (target hook : Nat) : Bool × ScopedHook × Machine :=
  if h.installed_ then (false, h, s)
  else
    let (okb, b) := GOTBackup.backup s target
    let h1 : ScopedHook := { h with backup_ := b }
    if !okb then (false, h1, s)
    else
      let (ok, s1) := hook_plt_entry_lowlevel P k s target hook 0
      if !ok then (false, h1, s1)
      else (true, { h1 with installed_ := true }, s1)

/-- `ScopedHook::~ScopedHook`. -/
def ScopedHook.destroy (P : Nat) (k : Kernel) (s : Machine) (h : ScopedHook) : Machine :=
  if h.installed_ then (GOTBackup.restore P k s h.backup_).2 else s

/-- The class `MemoryProtection`. -/
structure MemoryProtection where
  page_ : Nat
  size_ : Nat
  old_prot_ : Nat
  changed_ : Bool
deriving DecidableEq, Repr

/-- `MemoryProtection::MemoryProtection(addr, size, new_prot)`, with `P` the
value of `get_page_size()`. -/
def MemoryProtection.create (P : Nat) (k : Kernel) (s : Machine) (addr size new_prot : Nat) :
    MemoryProtection × Machine :=
  let page_ := page_align_down P addr
  -- Calculate actual size needed (may span multiple pages)
  let start := page_
  let end_ := add64 addr size
  let size_ := sub64 end_ start
  let size_ := sub64 (add64 size_ P) 1 &&& not64 (sub64 P 1)
  -- Change protection
  let (ret, s1) := sys_mprotect k s page_ size_ new_prot
  ({ page_ := page_, size_ := size_, old_prot_ := PROT_READ ||| PROT_EXEC,
     changed_ := decide (ret = 0) }, s1)

/-- `MemoryProtection::~MemoryProtection`. -/
def MemoryProtection.destroy (k : Kernel) (s : Machine) (p : MemoryProtection) : Machine :=
  if p.changed_ then (sys_mprotect k s p.page_ p.size_ p.old_prot_).2 else s

/-- `MemoryProtection::succeeded`. -/
def MemoryProtection.succeeded (p : MemoryProtection) : Bool := p.changed_

/-- `safe_hook_function`, with `P` the value of `get_page_size()`. The scoped
`prot` object is destroyed on each of the three return paths. `race` is what
the other threads of the process do to memory between this function's load of
the target and its compare-and-swap (`id` when nothing interferes). A null
`original` is `0`. -/
def safe_hook_function (P : Nat) (k : Kernel) (race : (Nat → Nat) → (Nat → Nat))
    (s : Machine) (target hook original : Nat) : Bool × Machine :=
  -- Make memory writable with RAII cleanup
  let (prot, s1) :=
    MemoryProtection.create P k s target 8 (PROT_READ ||| PROT_WRITE ||| PROT_EXEC)
  if !prot.succeeded then (false, prot.destroy k s1)
  else
    let expected := mem_read64 s1.mem target
    let s2 : Machine :=
      if original ≠ 0 then { s1 with mem := mem_write64 s1.mem original expected } else s1
    let s3 : Machine := { s2 with mem := race s2.mem }
    -- Try to install atomically
    let (swapped, m4) := asm_atomic_cas_ptr s3.mem target expected hook
    let s4 : Machine := { s3 with mem := m4 }
    if swapped = 0 then (false, prot.destroy k s4)
    else (true, prot.destroy k s4)

/-! ## Pattern search (`mem_search`, `lowlevel.hpp`) -/

/-- One byte read performed by the search. -/
inductive Access where
  | region (i : Nat)
  | pattern (i : Nat)
deriving DecidableEq, Repr

/-- What `mem_search` hands back: `found off` is the pointer `start + off`,
`notFound` is `nullptr`, `fault` is a read outside the region or the pattern. -/
inductive SearchResult where
  | fault
  | notFound
  | found (off : Nat)
deriving DecidableEq, Repr

/-- The inner loop `for (i = 0; i < pattern_len; ++i) if (p[i] != needle[i]) break;`
started at index `i` with `todo = pattern_len - i` iterations left; it yields
the final value of `i` and the reads performed. -/
def matchLoop (hay needle : List Nat) (p : Nat) :
    Nat → Nat → List Access → Option Nat × List Access
  | 0, i, tr => (some i, tr)
  | todo + 1, i, tr =>
    let tr1 := tr ++ [Access.region (p + i), Access.pattern i]
    match hay[p + i]?, needle[i]? with
    | some a, some b =>
      if a ≠ b then (some i, tr1) else matchLoop hay needle p todo (i + 1) tr1
    | _, _ => (none, tr1)

/-- The outer loop `for (p = haystack; p < end; ++p)` at offset `p` with
`todo = end - p` positions left. -/
def scanLoop (hay needle : List Nat) (pattern_len : Nat) :
    Nat → Nat → List Access → SearchResult × List Access
  | 0, _, tr => (SearchResult.notFound, tr)
  | todo + 1, p, tr =>
    match matchLoop hay needle p pattern_len 0 tr with
    | (none, tr1) => (SearchResult.fault, tr1)
    | (some i, tr1) =>
      if i = pattern_len then (SearchResult.found p, tr1)
      else scanLoop hay needle pattern_len todo (p + 1) tr1

/-- `mem_search(start, len, pattern, pattern_len)` over a region holding the
bytes `hay` (`len = hay.length`) and a pattern holding the bytes `needle`
(`pattern_len = needle.length`); the result comes with the reads performed. -/
def mem_search (hay needle : List Nat) : SearchResult × List Access :=
  let len := hay.length
  let pattern_len := needle.length
  if pattern_len = 0 ∨ pattern_len > len then (SearchResult.notFound, [])
  else scanLoop hay needle pattern_len (len - pattern_len + 1) 0 []

/-- `search_pattern_in_memory`. -/
def search_pattern_in_memory (hay needle : List Nat) : SearchResult × List Access :=
  mem_search hay needle

/-- The pattern occupies `region[K .. K + m)`. -/
def occursAt (hay needle : List Nat) (K : Nat) : Prop :=
  K + needle.length ≤ hay.length ∧ (hay.drop K).take needle.length = needle

instance (hay needle : List Nat) (K : Nat) : Decidable (occursAt hay needle K) := by
  unfold occursAt; infer_instance

/-- The machine of the scenario: the word `0xAAAABBBB` stored at `0x7000`, all
memory readable and executable. -/
def scenarioMachine : Machine :=
  { mem := mem_write64 (fun _ => 0) 0x7000 0xAAAABBBB, prot := fun _ => 5, errno := 0,
    calls := [] }

/-- A data page as the dynamic linker leaves it: readable and writable, not
executable; the word `0xAAAABBBB` is stored at `0x7000`. -/
def dataPageMachine : Machine :=
  { mem := mem_write64 (fun _ => 0) 0x7000 0xAAAABBBB,
    prot := fun _ => PROT_READ ||| PROT_WRITE, errno := 0, calls := [] }

/-- A kernel that refuses every protection request with `EACCES`. -/
def denyAll : Kernel := fun _ => 13

/-- A kernel that grants every protection request. -/
def grantAll : Kernel := fun _ => 0

/-- The state of the race scenario before the backup: the word `0x1111` stored
at `0x7000`, all memory readable and executable. -/
def raceMachine0 : Machine :=
  { mem := mem_write64 (fun _ => 0) 0x7000 0x1111, prot := fun _ => 5, errno := 0,
    calls := [] }

/-- The state of the race scenario when the install starts: after the backup
another writer has stored `0x2222` at `0x7000`. -/
def raceMachine1 : Machine :=
  { raceMachine0 with mem := mem_write64 raceMachine0.mem 0x7000 0x2222 }

/-- A racing writer that stores `0x3333` at `0x7000`. -/
def racingStore : (Nat → Nat) → (Nat → Nat) := fun m => mem_write64 m 0x7000 0x3333

/-- The state in which a hook `0xCCCCDDDD` sits at `0x7000` on a readable and
writable page. -/
def hookedMachine : Machine :=
  { mem := mem_write64 (fun _ => 0) 0x7000 0xCCCCDDDD,
    prot := fun _ => PROT_READ ||| PROT_WRITE, errno := 0, calls := [] }

/-- A read stays inside its buffer: region index below `n`, pattern index
below `m`. -/
def inBounds (n m : Nat) : Access → Prop
  | Access.region i => i < n
  | Access.pattern i => i < m

/-! ## Further parts of `lowlevel.hpp` and `asm_utils.h` -/

/-- `mem_read32`: the little-endian 4-byte load at `addr`. -/
def mem_read32 (m : Nat → Nat) (addr : Nat) : Nat :=
  m addr % 256 + (m (addr + 1) % 256) * 256 ^ 1 + (m (addr + 2) % 256) * 256 ^ 2
    + (m (addr + 3) % 256) * 256 ^ 3

/-- `mem_write32`: the little-endian 4-byte store of `value` at `addr`. -/
def mem_write32 (m : Nat → Nat) (addr value : Nat) : Nat → Nat :=
  fun a => if addr ≤ a ∧ a < addr + 4 then (value / 256 ^ (a - addr)) % 256 else m a

/-- `asm_atomic_cas32`: `__sync_bool_compare_and_swap` on a 32-bit cell. -/
def asm_atomic_cas32 (m : Nat → Nat) (ptr expected desired : Nat) : Int × (Nat → Nat) :=
  if mem_read32 m ptr = expected then (1, mem_write32 m ptr desired) else (0, m)

/-- `asm_atomic_cas64`: `__sync_bool_compare_and_swap` on a 64-bit cell. -/
def asm_atomic_cas64 (m : Nat → Nat) (ptr expected desired : Nat) : Int × (Nat → Nat) :=
  if mem_read64 m ptr = expected then (1, mem_write64 m ptr desired) else (0, m)

/-- The load of one `unsigned char`. -/
def byteAt (m : Nat → Nat) (a : Nat) : Nat := m a % 256

/-- `__builtin_memcpy(dest, src, n)` on ranges that do not overlap: the `n`
bytes at `dest` become the `n` bytes at `src`. -/
def builtin_memcpy (m : Nat → Nat) (dest src n : Nat) : Nat → Nat :=
  fun a => if dest ≤ a ∧ a < dest + n then byteAt m (src + (a - dest)) else m a

/-- `mem_copy_safe`: the copy between two memory barriers. -/
def mem_copy_safe (m : Nat → Nat) (dest src n : Nat) : Nat → Nat :=
  builtin_memcpy m dest src n

/-- The CPU family the sources are built for. -/
inductive Arch where
  | arm
  | x86
  | riscv
  | other
deriving DecidableEq, Repr

/-- One cache-maintenance or barrier instruction (or request) of the flush. -/
inductive CacheOp where
  | dcCvau (p : Nat)
  | icIvau (p : Nat)
  | dsbIsh
  | isb
  | fenceI
  | cacheflush (addr len : Nat)
deriving DecidableEq, Repr

/-- The loop `for (uintptr_t p = start; p < end; p += 64) op(p);` from `p`,
with `fuel` bounding the number of loop tests; `none` when the bound is hit. -/
def flushLoop (end_ : Nat) (op : Nat → CacheOp) : Nat → Nat → Option (List CacheOp)
  | 0, _ => none
  | fuel + 1, p =>
    if p < end_ then (flushLoop end_ op fuel (add64 p 64)).map (fun l => op p :: l)
    else some []

/-- `icache_flush(addr, len)` (`lowlevel.hpp`): the instructions issued, in
order. Each loop is given `len + 1` loop tests. -/
def icache_flush (arch : Arch) (addr len : Nat) : Option (List CacheOp) :=
  match arch with
  | Arch.arm =>
    let start := addr
    let end_ := add64 start len
    match flushLoop end_ CacheOp.dcCvau (len + 1) start,
          flushLoop end_ CacheOp.icIvau (len + 1) start with
    | some cleaned, some invalidated =>
      some (cleaned ++ [CacheOp.dsbIsh] ++ invalidated ++ [CacheOp.dsbIsh, CacheOp.isb])
    | _, _ => none
  | Arch.x86 => some []
  | Arch.riscv => some [CacheOp.fenceI]
  | Arch.other => some [CacheOp.cacheflush addr len]

/-! ## Further parts of `lowlevel.c` -/

/-- `lowlevel_flush_icache(addr, len)`: the instructions issued, in order (the
`cacheflush` request of the last variant is the one made when
`__NR_cacheflush` exists). -/
def lowlevel_flush_icache (arch : Arch) (addr len : Nat) : Option (List CacheOp) :=
  match arch with
  | Arch.arm =>
    let start := addr
    let end_ := add64 start len
    match flushLoop end_ CacheOp.dcCvau (len + 1) start,
          flushLoop end_ CacheOp.icIvau (len + 1) start with
    | some cleaned, some invalidated =>
      some (cleaned ++ [CacheOp.dsbIsh] ++ invalidated ++ [CacheOp.dsbIsh, CacheOp.isb])
    | _, _ => none
  | Arch.x86 => some []
  | Arch.riscv => some [CacheOp.fenceI]
  | Arch.other => some [CacheOp.cacheflush addr len]

/-- The loop of `lowlevel_memcmp` at index `i` with `todo = n - i` bytes left. -/
def memcmpLoop (m : Nat → Nat) (s1 s2 : Nat) : Nat → Nat → Int
  | 0, _ => 0
  | todo + 1, i =>
    if byteAt m (s1 + i) ≠ byteAt m (s2 + i) then
      (byteAt m (s1 + i) : Int) - (byteAt m (s2 + i) : Int)
    else memcmpLoop m s1 s2 todo (i + 1)

/-- `lowlevel_memcmp(s1, s2, n)`. -/
def lowlevel_memcmp (m : Nat → Nat) (s1 s2 n : Nat) : Int := memcmpLoop m s1 s2 n 0

/-- The loop of `lowlevel_memcpy` at index `i` with `todo = n - i` bytes left. -/
def memcpyLoop (dest src : Nat) : Nat → Nat → (Nat → Nat) → (Nat → Nat)
  | 0, _, m => m
  | todo + 1, i, m =>
    memcpyLoop dest src todo (i + 1) (fun a => if a = dest + i then byteAt m (src + i) else m a)

/-- `lowlevel_memcpy(dest, src, n)`. -/
def lowlevel_memcpy (m : Nat → Nat) (dest src n : Nat) : Nat → Nat :=
  memcpyLoop dest src n 0 m

/-- The value of a 64-bit pattern read as `long`. -/
def toInt64 (x : Int) : Int := (x + 2 ^ 63) % 2 ^ 64 - 2 ^ 63

/-- The conversion `(int)x`. -/
def toInt32 (x : Int) : Int := (x + 2 ^ 31) % 2 ^ 32 - 2 ^ 31

/-- The conversion `(unsigned long)x`. -/
def toUInt64 (x : Int) : Nat := (x % 2 ^ 64).toNat

def MAP_PRIVATE : Nat := 0x02
def MAP_ANONYMOUS : Nat := 0x20

/-- `MAP_FAILED`, the pointer `(void *) -1`. -/
def MAP_FAILED : Nat := WORD - 1

/-- What the kernel answers to a mapping request: refusal with an error number,
or the address of the new mapping. -/
inductive MmapOutcome where
  | error (e : Nat)
  | mapped (addr : Nat)
deriving DecidableEq, Repr

/-- The C library entry point `syscall(__NR_mmap, addr, length, prot, flags, fd,
offset)` for an anonymous mapping: on refusal `-1` is returned and `errno` set;
otherwise the new mapping is zero-filled, carries `prot`, and its address is
returned. -/
def syscall_mmap (o : MmapOutcome) (s : Machine) (_addr length prot _flags : Nat) (_fd : Int)
    (_offset : Nat) : Int × Machine :=
  match o with
  | MmapOutcome.error e => (-1, { s with errno := (e : Int) })
  | MmapOutcome.mapped a =>
    (toInt64 (a : Int),
      { s with mem := fun x => if a ≤ x ∧ x < a + length then 0 else s.mem x,
               prot := fun x => if a ≤ x ∧ x < a + length then prot else s.prot x })

/-- `lowlevel_mmap`. -/
def lowlevel_mmap (o : MmapOutcome) (s : Machine) (addr length prot flags : Nat) (fd : Int)
    (offset : Nat) : Nat × Machine :=
  let (result, s1) := syscall_mmap o s addr length prot flags fd offset
  -- Check if result is an error (small negative number, typically -1 to -4095)
  if toUInt64 result ≥ WORD - 4095 then
    (MAP_FAILED, { s1 with errno := -(toInt32 result) })
  else (toUInt64 result, s1)

/-- The C library entry point `syscall(__NR_munmap, addr, length)`, answered by
the kernel with the error number `e` (`0` = done). -/
def syscall_munmap (e : Nat) (s : Machine) (_addr _length : Nat) : Int × Machine :=
  if e = 0 then (0, s) else (-1, { s with errno := (e : Int) })

/-- `lowlevel_munmap`. -/
def lowlevel_munmap (e : Nat) (s : Machine) (addr length : Nat) : Int × Machine :=
  let (result, s1) := syscall_munmap e s addr length
  if result < 0 then (-1, { s1 with errno := -result }) else (0, s1)

/-- `lowlevel_alloc_executable`. A null result is `0`. -/
def lowlevel_alloc_executable (o : MmapOutcome) (s : Machine) (size : Nat) : Nat × Machine :=
  let (mem, s1) := lowlevel_mmap o s 0 size (PROT_READ ||| PROT_WRITE ||| PROT_EXEC)
    (MAP_PRIVATE ||| MAP_ANONYMOUS) (-1) 0
  if mem = MAP_FAILED then (0, s1) else (mem, s1)

/-- One descriptor `struct iovec`. -/
structure Iovec where
  iov_base : Nat
  iov_len : Nat
deriving DecidableEq, Repr

/-- The two vectorized transfer requests. -/
inductive VmDirection where
  | process_vm_readv
  | process_vm_writev
deriving DecidableEq, Repr

/-- One vectorized transfer request as it reaches the kernel. -/
structure VmRequest where
  nr : VmDirection
  pid : Int
  local_iov : List Iovec
  liovcnt : Nat
  remote_iov : List Iovec
  riovcnt : Nat
  flags : Nat
deriving DecidableEq, Repr

/-- `lowlevel_read_process_memory`: the value returned and the requests issued;
`kern` is the result `syscall()` hands back for a request. -/
def lowlevel_read_process_memory (kern : VmRequest → Int) (pid : Int)
    (local_addr remote_addr size : Nat) : Int × List VmRequest :=
  let loc : Iovec := { iov_base := local_addr, iov_len := size }
  let rem : Iovec := { iov_base := remote_addr, iov_len := size }
  let req : VmRequest :=
    { nr := VmDirection.process_vm_readv, pid := pid, local_iov := [loc], liovcnt := 1,
      remote_iov := [rem], riovcnt := 1, flags := 0 }
  (kern req, [req])

/-- `lowlevel_write_process_memory`. -/
def lowlevel_write_process_memory (kern : VmRequest → Int) (pid : Int)
    (local_addr remote_addr size : Nat) : Int × List VmRequest :=
  let loc : Iovec := { iov_base := local_addr, iov_len := size }
  let rem : Iovec := { iov_base := remote_addr, iov_len := size }
  let req : VmRequest :=
    { nr := VmDirection.process_vm_writev, pid := pid, local_iov := [loc], liovcnt := 1,
      remote_iov := [rem], riovcnt := 1, flags := 0 }
  (kern req, [req])

/-! ## Further parts of `lowlevel_inject.cpp` -/

/-- `read_remote_memory`. -/
def read_remote_memory (kern : VmRequest → Int) (pid : Int)
    (local_buf remote_addr size : Nat) : Int × List VmRequest :=
  lowlevel_read_process_memory kern pid local_buf remote_addr size

/-- `write_remote_memory`. -/
def write_remote_memory (kern : VmRequest → Int) (pid : Int)
    (local_buf remote_addr size : Nat) : Int × List VmRequest :=
  lowlevel_write_process_memory kern pid local_buf remote_addr size

/-- `inject_shellcode(code, code_size)`: the pointer returned (`0` is null), the
state, and the cache instructions issued; `none` when the flush does not come
to an end within its bound. -/
def inject_shellcode (arch : Arch) (o : MmapOutcome) (s : Machine) (code code_size : Nat) :
    Option (Nat × Machine × List CacheOp) :=
  -- Allocate executable memory using direct syscall
  let (mem, s1) := lowlevel_alloc_executable o s code_size
  if mem = 0 then some (0, s1, [])
  else
    -- Copy code using safe memory copy
    let s2 : Machine := { s1 with mem := mem_copy_safe s1.mem mem code code_size }
    -- Flush instruction cache so CPU sees the new code
    match icache_flush arch mem code_size with
    | some ops => some (mem, s2, ops)
    | none => none

/-! # Theorems -/

/-! ## Lemmas on words and memory -/

theorem mem_read64_lt (m : Nat → Nat) (a : Nat) : mem_read64 m a < WORD := by
  unfold mem_read64 WORD
  norm_num
  omega

theorem mem_read64_write64 (m : Nat → Nat) (a v : Nat) :
    mem_read64 (mem_write64 m a v) a = v % WORD := by
  unfold mem_read64 mem_write64 WORD
  have h : ∀ i, i < 8 → (a ≤ a + i ∧ a + i < a + 8) := by intro i hi; omega
  simp only [h 1 (by omega), h 2 (by omega), h 3 (by omega), h 4 (by omega), h 5 (by omega),
    h 6 (by omega), h 7 (by omega), Nat.add_sub_cancel_left, if_true, and_self, le_refl,
    Nat.lt_add_of_pos_right, Nat.sub_self, Nat.zero_lt_succ]
  norm_num
  omega

/-! ## Lemmas on the protection request -/

theorem syscall_mprotect_fst (k : Kernel) (s : Machine) (a l p : Nat) :
    (syscall_mprotect k s a l p).1 = if k s.calls.length = 0 then 0 else -1 := by
  unfold syscall_mprotect
  by_cases h : k s.calls.length = 0 <;> simp [h]

theorem syscall_mprotect_mem (k : Kernel) (s : Machine) (a l p : Nat) :
    (syscall_mprotect k s a l p).2.mem = s.mem := by
  unfold syscall_mprotect
  by_cases h : k s.calls.length = 0 <;> simp [h]

theorem syscall_mprotect_calls (k : Kernel) (s : Machine) (a l p : Nat) :
    (syscall_mprotect k s a l p).2.calls = s.calls ++ [⟨a, l, p⟩] := by
  unfold syscall_mprotect
  by_cases h : k s.calls.length = 0 <;> simp [h]

theorem syscall_mprotect_prot (k : Kernel) (s : Machine) (a l p : Nat)
    (h : k s.calls.length = 0) :
    (syscall_mprotect k s a l p).2.prot
      = fun x => if a ≤ x ∧ x < a + l then p else s.prot x := by
  unfold syscall_mprotect
  simp [h]

theorem syscall_mprotect_prot_denied (k : Kernel) (s : Machine) (a l p : Nat)
    (h : k s.calls.length ≠ 0) :
    (syscall_mprotect k s a l p).2.prot = s.prot := by
  unfold syscall_mprotect
  simp [h]

/-! ## The hook protocol -/

theorem hook_plt_entry_lowlevel_fst (P : Nat) (k : Kernel) (s : Machine) (t w o : Nat) :
    (hook_plt_entry_lowlevel P k s t w o).1 = decide (k s.calls.length = 0) := by
  unfold hook_plt_entry_lowlevel sys_mprotect
  have h1 := syscall_mprotect_fst k s (page_align_down P t) P
    (PROT_READ ||| PROT_WRITE ||| PROT_EXEC)
  by_cases h : k s.calls.length = 0
  · simp only [h, if_true] at h1
    simp [h, h1]
  · simp only [h, if_false] at h1
    simp [h, h1]

theorem hook_plt_entry_lowlevel_mem (P : Nat) (k : Kernel) (s : Machine) (t w : Nat)
    (h : k s.calls.length = 0) :
    (hook_plt_entry_lowlevel P k s t w 0).2.mem = mem_write64 s.mem t w := by
  unfold hook_plt_entry_lowlevel sys_mprotect
  have h1 := syscall_mprotect_fst k s (page_align_down P t) P
    (PROT_READ ||| PROT_WRITE ||| PROT_EXEC)
  simp only [h, if_true] at h1
  simp [h1, syscall_mprotect_mem]

theorem GOTBackup_restore_mem (P : Nat) (k : Kernel) (s : Machine) (b : GOTBackup)
    (h : b.address ≠ 0) :
    (GOTBackup.restore P k s b).2.mem = mem_write64 s.mem b.address b.original_value := by
  unfold GOTBackup.restore sys_mprotect
  simp [h, syscall_mprotect_mem]

theorem GOTBackup_restore_fst (P : Nat) (k : Kernel) (s : Machine) (b : GOTBackup) :
    (GOTBackup.restore P k s b).1 = decide (b.address ≠ 0) := by
  unfold GOTBackup.restore sys_mprotect
  by_cases h : b.address = 0 <;> simp [h]

theorem ScopedHook_install_fresh (P : Nat) (k : Kernel) (s : Machine) (b0 : GOTBackup)
    (target hook : Nat) :
    ScopedHook.install P k s ⟨b0, false⟩ target hook
      = if (hook_plt_entry_lowlevel P k s target hook 0).1 = true then
          (true, ⟨(GOTBackup.backup s target).2, true⟩,
            (hook_plt_entry_lowlevel P k s target hook 0).2)
        else
          (false, ⟨(GOTBackup.backup s target).2, false⟩,
            (hook_plt_entry_lowlevel P k s target hook 0).2) := by
  unfold ScopedHook.install
  by_cases h : (hook_plt_entry_lowlevel P k s target hook 0).1 = true <;>
    simp [h, GOTBackup.backup]

/-- C1. Backup, install, restore round trip: with every protection request
granted, `GOTBackup::backup(target)`, `hook_plt_entry_lowlevel(target, W, nullptr)`
and `GOTBackup::restore()` all succeed, the target holds `W` after the install
and holds its initial word again after the restore; the same holds when the
three steps are run by `ScopedHook::install` and the destructor of `ScopedHook`. -/
theorem backup_install_restore_roundtrip (P : Nat) (k : Kernel) (s : Machine)
    (target W : Nat) (htarget : target ≠ 0) (hk : ∀ n, k n = 0) :
    (hook_plt_entry_lowlevel P k s target W 0).1 = true
    ∧ mem_read64 (hook_plt_entry_lowlevel P k s target W 0).2.mem target = W % WORD
    ∧ (GOTBackup.restore P k (hook_plt_entry_lowlevel P k s target W 0).2
        (GOTBackup.backup s target).2).1 = true
    ∧ mem_read64 (GOTBackup.restore P k (hook_plt_entry_lowlevel P k s target W 0).2
        (GOTBackup.backup s target).2).2.mem target = mem_read64 s.mem target
    ∧ ∀ b0 : GOTBackup,
        (ScopedHook.install P k s ⟨b0, false⟩ target W).1 = true
        ∧ mem_read64 (ScopedHook.destroy P k (ScopedHook.install P k s ⟨b0, false⟩ target W).2.2
            (ScopedHook.install P k s ⟨b0, false⟩ target W).2.1).mem target
          = mem_read64 s.mem target := by
  have hb : (GOTBackup.backup s target).2.address ≠ 0 := by simpa [GOTBackup.backup] using htarget
  have hlast : mem_read64 (GOTBackup.restore P k (hook_plt_entry_lowlevel P k s target W 0).2
      (GOTBackup.backup s target).2).2.mem target = mem_read64 s.mem target := by
    rw [GOTBackup_restore_mem P k _ _ hb]
    simp only [GOTBackup.backup]
    rw [mem_read64_write64, Nat.mod_eq_of_lt (mem_read64_lt _ _)]
  have hok : (hook_plt_entry_lowlevel P k s target W 0).1 = true := by
    simp [hook_plt_entry_lowlevel_fst, hk]
  refine ⟨hok, ?_, ?_, hlast, fun b0 => ?_⟩
  · rw [hook_plt_entry_lowlevel_mem P k s target W (hk _), mem_read64_write64]
  · rw [GOTBackup_restore_fst]; simpa using hb
  · rw [ScopedHook_install_fresh, hok]
    simp only [if_true]
    exact ⟨trivial, by simpa [ScopedHook.destroy] using hlast⟩

/-- C1 at the scenario of the specification: the target holds `0xAAAABBBB`,
`0xCCCCDDDD` is installed and the restore brings `0xAAAABBBB` back. -/
theorem backup_install_restore_roundtrip_witness :
    mem_read64 scenarioMachine.mem 0x7000 = 0xAAAABBBB
    ∧ mem_read64 (hook_plt_entry_lowlevel 4096 (fun _ => 0) scenarioMachine
        0x7000 0xCCCCDDDD 0).2.mem 0x7000 = 0xCCCCDDDD
    ∧ mem_read64 (GOTBackup.restore 4096 (fun _ => 0)
        (hook_plt_entry_lowlevel 4096 (fun _ => 0) scenarioMachine 0x7000 0xCCCCDDDD 0).2
        (GOTBackup.backup scenarioMachine 0x7000).2).2.mem 0x7000 = 0xAAAABBBB := by
  have h0 : mem_read64 scenarioMachine.mem 0x7000 = 0xAAAABBBB := by
    simp only [scenarioMachine]
    rw [mem_read64_write64]
    decide
  have h := backup_install_restore_roundtrip 4096 (fun _ => 0) scenarioMachine 0x7000
    0xCCCCDDDD (by decide) (fun _ => rfl)
  refine ⟨h0, ?_, ?_⟩
  · rw [h.2.1]; decide
  · rw [h.2.2.2.1, h0]

/-! ## Page alignment -/

theorem pow_lt_WORD {e : Nat} (he : e < 64) : 2 ^ e < WORD := by
  unfold WORD
  exact Nat.pow_lt_pow_right (by decide) he

theorem testBit_not64 (y i : Nat) (hy : y < WORD) :
    (not64 y).testBit i = (decide (i < 64) && !y.testBit i) := by
  unfold not64
  rw [Nat.mod_eq_of_lt hy]
  have h : WORD - 1 - y = 2 ^ 64 - (y + 1) := by unfold WORD; omega
  rw [h]
  exact Nat.testBit_two_pow_sub_succ hy i

theorem sub64_pow_one {e : Nat} (he : e < 64) : sub64 (2 ^ e) 1 = 2 ^ e - 1 := by
  have h1 := pow_lt_WORD he
  have h2 : 0 < 2 ^ e := Nat.two_pow_pos e
  unfold sub64
  unfold WORD at *
  omega

theorem and_not64_pow {e : Nat} (he : e < 64) (x : Nat) (hx : x < WORD) :
    x &&& not64 (sub64 (2 ^ e) 1) = 2 ^ e * (x / 2 ^ e) := by
  have h1 := pow_lt_WORD he
  have h2 : 0 < 2 ^ e := Nat.two_pow_pos e
  apply Nat.eq_of_testBit_eq
  intro i
  rw [Nat.testBit_and, sub64_pow_one he, testBit_not64 _ _ (by omega),
    Nat.testBit_two_pow_sub_one, Nat.testBit_mul_pow_two, ← Nat.shiftRight_eq_div_pow,
    Nat.testBit_shiftRight]
  by_cases hik : i < e
  · have : ¬ (i ≥ e) := by omega
    simp [hik, this]
  · have hge : i ≥ e := by omega
    have e' : e + (i - e) = i := by omega
    rw [e']
    by_cases h64 : i < 64
    · simp [hik, hge, h64]
    · have : x.testBit i = false := by
        apply Nat.testBit_lt_two_pow
        calc x < 2 ^ 64 := hx
          _ ≤ 2 ^ i := Nat.pow_le_pow_right (by decide) (by omega)
      simp [this]

theorem page_align_down_eq {e : Nat} (he : e < 64) (a : Nat) (ha : a < WORD) :
    page_align_down (2 ^ e) a = 2 ^ e * (a / 2 ^ e) := and_not64_pow he a ha

theorem page_align_down_le {e : Nat} (he : e < 64) (a : Nat) (ha : a < WORD) :
    page_align_down (2 ^ e) a ≤ a := by
  rw [page_align_down_eq he a ha]
  exact Nat.mul_div_le a (2 ^ e)

theorem lt_page_align_down_add {e : Nat} (he : e < 64) (a : Nat) (ha : a < WORD) :
    a < page_align_down (2 ^ e) a + 2 ^ e := by
  rw [page_align_down_eq he a ha]
  have h1 := Nat.div_add_mod a (2 ^ e)
  have h2 := Nat.mod_lt a (Nat.two_pow_pos e)
  omega

/-! ## Protection after the round trip -/

theorem hook_plt_entry_lowlevel_prot (P : Nat) (k : Kernel) (s : Machine) (t w o : Nat)
    (hall : ∀ n, k n = 0) (a : Nat) :
    (hook_plt_entry_lowlevel P k s t w o).2.prot a
      = if page_align_down P t ≤ a ∧ a < page_align_down P t + P then PROT_READ ||| PROT_EXEC
        else s.prot a := by
  unfold hook_plt_entry_lowlevel sys_mprotect syscall_mprotect
  by_cases ho : o = 0 <;> by_cases hin : page_align_down P t ≤ a ∧ a < page_align_down P t + P
    <;> simp [hall, ho, hin]

theorem GOTBackup_restore_prot (P : Nat) (k : Kernel) (s : Machine) (b : GOTBackup)
    (hb : b.address ≠ 0) (hall : ∀ n, k n = 0) (a : Nat) :
    (GOTBackup.restore P k s b).2.prot a
      = if page_align_down P b.address ≤ a ∧ a < page_align_down P b.address + P
        then PROT_READ ||| PROT_EXEC else s.prot a := by
  unfold GOTBackup.restore sys_mprotect syscall_mprotect
  by_cases hin : page_align_down P b.address ≤ a ∧ a < page_align_down P b.address + P
    <;> simp [hall, hb, hin]

/-- C2, as the code has it. With every protection request granted, after backup,
install and restore every byte of the page that contains the target (the target
itself included) carries `PROT_READ | PROT_EXEC`, the fixed value the code
restores, whatever the flags were before the install. -/
theorem protection_after_roundtrip (e : Nat) (he : e < 64) (k : Kernel) (s : Machine)
    (target W : Nat) (htarget : target ≠ 0) (hword : target < WORD) (hk : ∀ n, k n = 0) :
    (page_align_down (2 ^ e) target ≤ target
      ∧ target < page_align_down (2 ^ e) target + 2 ^ e)
    ∧ ∀ a, page_align_down (2 ^ e) target ≤ a → a < page_align_down (2 ^ e) target + 2 ^ e →
        (GOTBackup.restore (2 ^ e) k (hook_plt_entry_lowlevel (2 ^ e) k s target W 0).2
          (GOTBackup.backup s target).2).2.prot a = PROT_READ ||| PROT_EXEC := by
  refine ⟨⟨page_align_down_le he target hword, lt_page_align_down_add he target hword⟩, ?_⟩
  intro a h1 h2
  have hb : (GOTBackup.backup s target).2.address ≠ 0 := by simpa [GOTBackup.backup] using htarget
  rw [GOTBackup_restore_prot _ k _ _ hb hk a]
  have hin : page_align_down (2 ^ e) (GOTBackup.backup s target).2.address ≤ a
      ∧ a < page_align_down (2 ^ e) (GOTBackup.backup s target).2.address + 2 ^ e := by
    simpa [GOTBackup.backup] using And.intro h1 h2
  rw [if_pos hin]

/-- C2 on a 4096-byte page that starts readable and writable: the target's
byte ends readable and executable. -/
theorem protection_after_roundtrip_witness :
    (GOTBackup.restore (2 ^ 12) grantAll
      (hook_plt_entry_lowlevel (2 ^ 12) grantAll dataPageMachine 0x7000 0xCCCCDDDD 0).2
      (GOTBackup.backup dataPageMachine 0x7000).2).2.prot 0x7000 = PROT_READ ||| PROT_EXEC :=
  let h := protection_after_roundtrip 12 (by decide) grantAll dataPageMachine 0x7000 0xCCCCDDDD
    (by decide) (by decide) (fun _ => rfl)
  h.2 0x7000 h.1.1 h.1.2

/-- C2 as stated fails: on a page that is readable and writable before the
install, with every protection request granted, the page's flags after backup,
install and restore differ from the flags observed before the install. -/
theorem protection_roundtrip_counterexample :
    dataPageMachine.prot 0x7000 = PROT_READ ||| PROT_WRITE
    ∧ (GOTBackup.restore 4096 grantAll
        (hook_plt_entry_lowlevel 4096 grantAll dataPageMachine 0x7000 0xCCCCDDDD 0).2
        (GOTBackup.backup dataPageMachine 0x7000).2).2.prot 0x7000
      ≠ dataPageMachine.prot 0x7000 := by
  refine ⟨rfl, ?_⟩
  rw [GOTBackup_restore_prot 4096 grantAll _ _ (by decide) (fun _ => rfl) 0x7000]
  decide

/-! ## The compare-and-swap install -/

theorem MemoryProtection_create_changed (P : Nat) (k : Kernel) (s : Machine) (a n p : Nat) :
    (MemoryProtection.create P k s a n p).1.changed_ = decide (k s.calls.length = 0) := by
  unfold MemoryProtection.create sys_mprotect
  simp only [syscall_mprotect_fst]
  by_cases h : k s.calls.length = 0 <;> simp [h]

theorem MemoryProtection_create_mem (P : Nat) (k : Kernel) (s : Machine) (a n p : Nat) :
    (MemoryProtection.create P k s a n p).2.mem = s.mem := by
  unfold MemoryProtection.create sys_mprotect
  simp [syscall_mprotect_mem]

theorem MemoryProtection_create_calls (P : Nat) (k : Kernel) (s : Machine) (a n p : Nat) :
    (MemoryProtection.create P k s a n p).2.calls
      = s.calls ++ [⟨(MemoryProtection.create P k s a n p).1.page_,
          (MemoryProtection.create P k s a n p).1.size_, p⟩] := by
  unfold MemoryProtection.create sys_mprotect
  simp [syscall_mprotect_calls]

theorem MemoryProtection_create_old_prot (P : Nat) (k : Kernel) (s : Machine) (a n p : Nat) :
    (MemoryProtection.create P k s a n p).1.old_prot_ = PROT_READ ||| PROT_EXEC := by
  unfold MemoryProtection.create sys_mprotect
  simp

theorem MemoryProtection_destroy_mem (k : Kernel) (s : Machine) (p : MemoryProtection) :
    (p.destroy k s).mem = s.mem := by
  unfold MemoryProtection.destroy sys_mprotect
  by_cases h : p.changed_ <;> simp [h, syscall_mprotect_mem]

theorem MemoryProtection_destroy_calls (k : Kernel) (s : Machine) (p : MemoryProtection) :
    (p.destroy k s).calls
      = s.calls ++ (if p.changed_ then [⟨p.page_, p.size_, p.old_prot_⟩] else []) := by
  unfold MemoryProtection.destroy sys_mprotect
  by_cases h : p.changed_ <;> simp [h, syscall_mprotect_calls]

/-- The memory `safe_hook_function` presents to its compare-and-swap: the
caller's slot filled in when there is one, then the other threads' writes. -/
theorem safe_hook_function_granted (P : Nat) (k : Kernel) (race : (Nat → Nat) → (Nat → Nat))
    (s : Machine) (target hook original : Nat) (hgrant : k s.calls.length = 0) :
    (safe_hook_function P k race s target hook original).1
        = decide (mem_read64 (race (if original ≠ 0 then
            mem_write64 s.mem original (mem_read64 s.mem target) else s.mem)) target
              = mem_read64 s.mem target)
    ∧ (safe_hook_function P k race s target hook original).2.mem
        = (asm_atomic_cas_ptr (race (if original ≠ 0 then
            mem_write64 s.mem original (mem_read64 s.mem target) else s.mem))
            target (mem_read64 s.mem target) hook).2 := by
  unfold safe_hook_function
  have hc := MemoryProtection_create_changed P k s target 8
    (PROT_READ ||| PROT_WRITE ||| PROT_EXEC)
  have hm := MemoryProtection_create_mem P k s target 8
    (PROT_READ ||| PROT_WRITE ||| PROT_EXEC)
  simp only [hgrant, decide_True] at hc
  by_cases ho : original = 0 <;>
    by_cases hcas : mem_read64 (race (if original ≠ 0 then
            mem_write64 s.mem original (mem_read64 s.mem target) else s.mem)) target
              = mem_read64 s.mem target <;>
    simp [MemoryProtection.succeeded, hc, hm, ho, MemoryProtection_destroy_mem,
      asm_atomic_cas_ptr] at hcas ⊢ <;> simp [hcas, MemoryProtection_destroy_mem]

/-- C3, as the code has it. `safe_hook_function` compares the target with the
word it loads itself once the protection change is granted, not with a word
recorded by an earlier backup. When the target is changed between that load
and the compare-and-swap, the install returns `false` and leaves memory as the
racing writer left it; when it is not, the install returns `true` and the
target holds the hook. -/
theorem safe_hook_function_cas_outcome (P : Nat) (k : Kernel)
    (race : (Nat → Nat) → (Nat → Nat)) (s : Machine) (target hook original : Nat)
    (hgrant : k s.calls.length = 0) :
    (mem_read64 (race (if original ≠ 0 then
          mem_write64 s.mem original (mem_read64 s.mem target) else s.mem)) target
        ≠ mem_read64 s.mem target →
      (safe_hook_function P k race s target hook original).1 = false
      ∧ (safe_hook_function P k race s target hook original).2.mem
          = race (if original ≠ 0 then
              mem_write64 s.mem original (mem_read64 s.mem target) else s.mem))
    ∧ (mem_read64 (race (if original ≠ 0 then
          mem_write64 s.mem original (mem_read64 s.mem target) else s.mem)) target
        = mem_read64 s.mem target →
      (safe_hook_function P k race s target hook original).1 = true
      ∧ mem_read64 (safe_hook_function P k race s target hook original).2.mem target
          = hook % WORD) := by
  obtain ⟨h1, h2⟩ := safe_hook_function_granted P k race s target hook original hgrant
  constructor
  · intro hne
    rw [h1, h2]
    unfold asm_atomic_cas_ptr
    rw [if_neg hne]
    exact ⟨decide_eq_false hne, rfl⟩
  · intro heq
    rw [h1, h2]
    unfold asm_atomic_cas_ptr
    rw [if_pos heq]
    exact ⟨decide_eq_true heq, mem_read64_write64 _ _ _⟩

/-- C3 on the race scenario: a store that lands between the install's load and
its compare-and-swap makes the install fail and survives it, while an install
without interference succeeds. -/
theorem safe_hook_function_cas_outcome_witness :
    ((safe_hook_function 4096 grantAll racingStore raceMachine1 0x7000 0x9999 0).1 = false
      ∧ (safe_hook_function 4096 grantAll racingStore raceMachine1 0x7000 0x9999 0).2.mem
          = racingStore raceMachine1.mem)
    ∧ ((safe_hook_function 4096 grantAll id raceMachine1 0x7000 0x9999 0).1 = true
      ∧ mem_read64 (safe_hook_function 4096 grantAll id raceMachine1 0x7000 0x9999 0).2.mem
          0x7000 = 0x9999 % WORD) :=
  ⟨(safe_hook_function_cas_outcome 4096 grantAll racingStore raceMachine1 0x7000 0x9999 0
      rfl).1 (by decide),
   (safe_hook_function_cas_outcome 4096 grantAll id raceMachine1 0x7000 0x9999 0
      rfl).2 (by decide)⟩

/-- C3 as stated fails: the backup recorded `0x1111`, the target holds `0x2222`
when the install starts, and yet `safe_hook_function` reports success and
overwrites the target with the hook. -/
theorem cas_install_conflict_counterexample :
    (GOTBackup.backup raceMachine0 0x7000).2.original_value = 0x1111
    ∧ mem_read64 raceMachine1.mem 0x7000 = 0x2222
    ∧ (safe_hook_function 4096 grantAll id raceMachine1 0x7000 0x9999 0).1 = true
    ∧ mem_read64 (safe_hook_function 4096 grantAll id raceMachine1 0x7000 0x9999 0).2.mem
        0x7000 = 0x9999 := by
  obtain ⟨h1, h2⟩ := safe_hook_function_granted 4096 grantAll id raceMachine1 0x7000 0x9999 0 rfl
  refine ⟨by decide, by decide, ?_, ?_⟩
  · rw [h1]; decide
  · rw [h2]; decide

/-! ## Denied protection changes -/

theorem lowlevel_mprotect_fst (k : Kernel) (s : Machine) (a l p : Nat) :
    (lowlevel_mprotect k s a l p).1 = if k s.calls.length = 0 then 0 else -1 := by
  unfold lowlevel_mprotect syscall_mprotect
  by_cases h : k s.calls.length = 0 <;> simp [h]

theorem lowlevel_mprotect_mem (k : Kernel) (s : Machine) (a l p : Nat) :
    (lowlevel_mprotect k s a l p).2.mem = s.mem := by
  unfold lowlevel_mprotect syscall_mprotect
  by_cases h : k s.calls.length = 0 <;> simp [h]

/-- C4. When the kernel denies the request to make the page writable, each of
`hook_plt_entry_lowlevel`, `safe_hook_function` and `lowlevel_hook_function`
reports failure (`false`, `false`, `-1`) and leaves memory as it was: neither
the word at the target nor the caller's output slot is written. -/
theorem install_skipped_on_denial (P : Nat) (k : Kernel) (race : (Nat → Nat) → (Nat → Nat))
    (s : Machine) (target hook original : Nat) (hdeny : k s.calls.length ≠ 0) :
    ((hook_plt_entry_lowlevel P k s target hook original).1 = false
      ∧ (hook_plt_entry_lowlevel P k s target hook original).2.mem = s.mem)
    ∧ ((safe_hook_function P k race s target hook original).1 = false
      ∧ (safe_hook_function P k race s target hook original).2.mem = s.mem)
    ∧ ((lowlevel_hook_function P k s target hook original).1 = -1
      ∧ (lowlevel_hook_function P k s target hook original).2.mem = s.mem) := by
  refine ⟨⟨?_, ?_⟩, ⟨?_, ?_⟩, ⟨?_, ?_⟩⟩
  · rw [hook_plt_entry_lowlevel_fst]; simp [hdeny]
  · unfold hook_plt_entry_lowlevel sys_mprotect
    simp [syscall_mprotect_fst, hdeny, syscall_mprotect_mem]
  · unfold safe_hook_function
    simp [MemoryProtection.succeeded, MemoryProtection_create_changed, hdeny]
  · unfold safe_hook_function
    simp [MemoryProtection.succeeded, MemoryProtection_create_changed, hdeny,
      MemoryProtection_destroy_mem, MemoryProtection_create_mem]
  · unfold lowlevel_hook_function
    simp [lowlevel_mprotect_fst, hdeny]
  · unfold lowlevel_hook_function
    simp [lowlevel_mprotect_fst, hdeny, lowlevel_mprotect_mem]

/-- C4 on the scenario machine with a kernel that refuses every request. -/
theorem install_skipped_on_denial_witness :
    ((hook_plt_entry_lowlevel 4096 denyAll scenarioMachine 0x7000 0xCCCCDDDD 0x8000).1 = false
      ∧ (hook_plt_entry_lowlevel 4096 denyAll scenarioMachine 0x7000 0xCCCCDDDD 0x8000).2.mem
          = scenarioMachine.mem)
    ∧ ((safe_hook_function 4096 denyAll id scenarioMachine 0x7000 0xCCCCDDDD 0x8000).1 = false
      ∧ (safe_hook_function 4096 denyAll id scenarioMachine 0x7000 0xCCCCDDDD 0x8000).2.mem
          = scenarioMachine.mem)
    ∧ ((lowlevel_hook_function 4096 denyAll scenarioMachine 0x7000 0xCCCCDDDD 0x8000).1 = -1
      ∧ (lowlevel_hook_function 4096 denyAll scenarioMachine 0x7000 0xCCCCDDDD 0x8000).2.mem
          = scenarioMachine.mem) :=
  install_skipped_on_denial 4096 denyAll id scenarioMachine 0x7000 0xCCCCDDDD 0x8000
    (by decide)

/-- C5 on the code. A hook `0xCCCCDDDD` sits at `0x7000` and the kernel refuses
every protection request; `GOTBackup::restore` nevertheless stores the
recorded word `0xAAAABBBB` over the target and returns `true`, the protection
flags being what they were. -/
theorem restore_ignores_denied_protection :
    mem_read64 hookedMachine.mem 0x7000 = 0xCCCCDDDD
    ∧ (GOTBackup.restore 4096 denyAll hookedMachine ⟨0x7000, 0xAAAABBBB⟩).1 = true
    ∧ mem_read64 (GOTBackup.restore 4096 denyAll hookedMachine ⟨0x7000, 0xAAAABBBB⟩).2.mem
        0x7000 = 0xAAAABBBB
    ∧ (GOTBackup.restore 4096 denyAll hookedMachine ⟨0x7000, 0xAAAABBBB⟩).2.prot 0x7000
        = hookedMachine.prot 0x7000 := by
  refine ⟨by decide, ?_, ?_, ?_⟩
  · rw [GOTBackup_restore_fst]; decide
  · rw [GOTBackup_restore_mem 4096 denyAll hookedMachine ⟨0x7000, 0xAAAABBBB⟩ (by decide),
      mem_read64_write64]
    decide
  · unfold GOTBackup.restore sys_mprotect
    simp [syscall_mprotect_prot_denied, denyAll]

/-! ## The protection scope -/

/-- C6. In every run of `safe_hook_function` the protection requests issued are
the acquiring one, over the scope's page base and span with
`PROT_READ | PROT_WRITE | PROT_EXEC`, followed, exactly when the acquisition was
granted, by a single restoring one over the same base and span with the
recorded previous protection `PROT_READ | PROT_EXEC`; this holds on the
successful path and on the path where the compare-and-swap fails. -/
theorem safe_hook_function_scoped_release (P : Nat) (k : Kernel)
    (race : (Nat → Nat) → (Nat → Nat)) (s : Machine) (target hook original : Nat) :
    (safe_hook_function P k race s target hook original).2.calls
      = s.calls
        ++ ⟨(MemoryProtection.create P k s target 8
                (PROT_READ ||| PROT_WRITE ||| PROT_EXEC)).1.page_,
            (MemoryProtection.create P k s target 8
                (PROT_READ ||| PROT_WRITE ||| PROT_EXEC)).1.size_,
            PROT_READ ||| PROT_WRITE ||| PROT_EXEC⟩
          :: (if k s.calls.length = 0 then
                [⟨(MemoryProtection.create P k s target 8
                      (PROT_READ ||| PROT_WRITE ||| PROT_EXEC)).1.page_,
                  (MemoryProtection.create P k s target 8
                      (PROT_READ ||| PROT_WRITE ||| PROT_EXEC)).1.size_,
                  PROT_READ ||| PROT_EXEC⟩]
              else [])
    ∧ (MemoryProtection.create P k s target 8
          (PROT_READ ||| PROT_WRITE ||| PROT_EXEC)).1.page_ = page_align_down P target
    ∧ (MemoryProtection.create P k s target 8
          (PROT_READ ||| PROT_WRITE ||| PROT_EXEC)).1.old_prot_ = PROT_READ ||| PROT_EXEC := by
  refine ⟨?_, by simp [MemoryProtection.create], MemoryProtection_create_old_prot _ _ _ _ _ _⟩
  unfold safe_hook_function
  have hc := MemoryProtection_create_changed P k s target 8
    (PROT_READ ||| PROT_WRITE ||| PROT_EXEC)
  have hcalls := MemoryProtection_create_calls P k s target 8
    (PROT_READ ||| PROT_WRITE ||| PROT_EXEC)
  have hold := MemoryProtection_create_old_prot P k s target 8
    (PROT_READ ||| PROT_WRITE ||| PROT_EXEC)
  by_cases hg : k s.calls.length = 0
  · simp only [hg, decide_True] at hc
    by_cases hcas : (asm_atomic_cas_ptr
        (race (if original ≠ 0 then mem_write64
          (MemoryProtection.create P k s target 8
            (PROT_READ ||| PROT_WRITE ||| PROT_EXEC)).2.mem original
          (mem_read64 (MemoryProtection.create P k s target 8
            (PROT_READ ||| PROT_WRITE ||| PROT_EXEC)).2.mem target)
          else (MemoryProtection.create P k s target 8
            (PROT_READ ||| PROT_WRITE ||| PROT_EXEC)).2.mem))
        target (mem_read64 (MemoryProtection.create P k s target 8
            (PROT_READ ||| PROT_WRITE ||| PROT_EXEC)).2.mem target) hook).1 = 0
    all_goals
      by_cases ho : original = 0 <;>
      simp [MemoryProtection.succeeded, hc, hg, ho, MemoryProtection_destroy_calls, hcalls,
        hold] at hcas ⊢ <;> simp [hcas, MemoryProtection_destroy_calls, hc, hcalls, hold]
  · simp only [hg, decide_False] at hc
    simp [MemoryProtection.succeeded, hc, hg, MemoryProtection_destroy_calls, hcalls]

/-- C6 on the race scenario, once for each exit path after a granted
acquisition: the compare-and-swap fails under `racingStore` and succeeds
without interference, and both runs issue the same two requests over the page
`[0x7000, 0x8000)`. -/
theorem safe_hook_function_scoped_release_witness :
    ((safe_hook_function 4096 grantAll racingStore raceMachine1 0x7000 0x9999 0).1 = false
      ∧ (safe_hook_function 4096 grantAll racingStore raceMachine1 0x7000 0x9999 0).2.calls
          = [⟨0x7000, 4096, 7⟩, ⟨0x7000, 4096, 5⟩])
    ∧ ((safe_hook_function 4096 grantAll id raceMachine1 0x7000 0x9999 0).1 = true
      ∧ (safe_hook_function 4096 grantAll id raceMachine1 0x7000 0x9999 0).2.calls
          = [⟨0x7000, 4096, 7⟩, ⟨0x7000, 4096, 5⟩]) := by
  have hf := (safe_hook_function_granted 4096 grantAll racingStore raceMachine1
    0x7000 0x9999 0 rfl).1
  have ht := (safe_hook_function_granted 4096 grantAll id raceMachine1 0x7000 0x9999 0 rfl).1
  have cf := (safe_hook_function_scoped_release 4096 grantAll racingStore raceMachine1
    0x7000 0x9999 0).1
  have ct := (safe_hook_function_scoped_release 4096 grantAll id raceMachine1
    0x7000 0x9999 0).1
  refine ⟨⟨?_, ?_⟩, ⟨?_, ?_⟩⟩
  · rw [hf]; decide
  · rw [cf]; decide
  · rw [ht]; decide
  · rw [ct]; decide

/-! ## Outward page rounding -/

theorem MemoryProtection_create_page (P : Nat) (k : Kernel) (s : Machine) (a n p : Nat) :
    (MemoryProtection.create P k s a n p).1.page_ = page_align_down P a := by
  simp [MemoryProtection.create]

theorem MemoryProtection_create_size (P : Nat) (k : Kernel) (s : Machine) (a n p : Nat) :
    (MemoryProtection.create P k s a n p).1.size_
      = sub64 (add64 (sub64 (add64 a n) (page_align_down P a)) P) 1 &&& not64 (sub64 P 1) := by
  simp [MemoryProtection.create]

/-- The span the constructor computes, in closed form: the distance from the
page base to the end of the range, rounded up to whole pages. -/
theorem MemoryProtection_size_eq {e : Nat} (he : e < 64) (addr size : Nat)
    (hend : addr + size < WORD)
    (hfit : addr + size - page_align_down (2 ^ e) addr + 2 ^ e ≤ WORD) :
    sub64 (add64 (sub64 (add64 addr size) (page_align_down (2 ^ e) addr)) (2 ^ e)) 1
        &&& not64 (sub64 (2 ^ e) 1)
      = 2 ^ e * ((addr + size - page_align_down (2 ^ e) addr + 2 ^ e - 1) / 2 ^ e) := by
  have hP := pow_lt_WORD he
  have hP0 : 0 < 2 ^ e := Nat.two_pow_pos e
  have hle := page_align_down_le he addr (by omega)
  have hval : sub64 (add64 (sub64 (add64 addr size) (page_align_down (2 ^ e) addr)) (2 ^ e)) 1
      = addr + size - page_align_down (2 ^ e) addr + 2 ^ e - 1 := by
    unfold sub64 add64
    unfold WORD at *
    omega
  rw [hval]
  apply and_not64_pow he
  unfold WORD at *
  omega

/-- C7, as the code has it. For a power-of-two page size `P`, a range
`[addr, addr + size)` with `size > 0` that does not overflow and whose
page-rounded span fits in a machine word, the constructor requests the
protection change over `base = page_align_down addr` and a length `L` with
`base` a multiple of `P`, `L` a positive multiple of `P`, the range contained
in `[base, base + L)`, and `L` minimal. -/
theorem MemoryProtection_create_outward (e : Nat) (he : e < 64) (k : Kernel) (s : Machine)
    (addr size new_prot : Nat) (hsize : 0 < size) (hend : addr + size < WORD)
    (hfit : addr + size - page_align_down (2 ^ e) addr + 2 ^ e ≤ WORD) :
    (MemoryProtection.create (2 ^ e) k s addr size new_prot).2.calls
        = s.calls ++ [⟨(MemoryProtection.create (2 ^ e) k s addr size new_prot).1.page_,
            (MemoryProtection.create (2 ^ e) k s addr size new_prot).1.size_, new_prot⟩]
    ∧ (MemoryProtection.create (2 ^ e) k s addr size new_prot).1.page_
        = page_align_down (2 ^ e) addr
    ∧ 2 ^ e ∣ (MemoryProtection.create (2 ^ e) k s addr size new_prot).1.page_
    ∧ 2 ^ e ∣ (MemoryProtection.create (2 ^ e) k s addr size new_prot).1.size_
    ∧ 0 < (MemoryProtection.create (2 ^ e) k s addr size new_prot).1.size_
    ∧ (MemoryProtection.create (2 ^ e) k s addr size new_prot).1.page_ ≤ addr
    ∧ addr + size ≤ (MemoryProtection.create (2 ^ e) k s addr size new_prot).1.page_
        + (MemoryProtection.create (2 ^ e) k s addr size new_prot).1.size_
    ∧ (MemoryProtection.create (2 ^ e) k s addr size new_prot).1.page_
        + (MemoryProtection.create (2 ^ e) k s addr size new_prot).1.size_ - 2 ^ e
        < addr + size := by
  have hP0 : 0 < 2 ^ e := Nat.two_pow_pos e
  have hle := page_align_down_le he addr (by omega)
  have hdm := Nat.div_add_mod (addr + size - page_align_down (2 ^ e) addr + 2 ^ e - 1) (2 ^ e)
  have hml := Nat.mod_lt (addr + size - page_align_down (2 ^ e) addr + 2 ^ e - 1) hP0
  refine ⟨MemoryProtection_create_calls _ _ _ _ _ _, MemoryProtection_create_page _ _ _ _ _ _,
    ?_, ?_, ?_, ?_, ?_, ?_⟩
  · rw [MemoryProtection_create_page, page_align_down_eq he addr (by omega)]
    exact Dvd.intro _ rfl
  · rw [MemoryProtection_create_size, MemoryProtection_size_eq he addr size hend hfit]
    exact Dvd.intro _ rfl
  · rw [MemoryProtection_create_size, MemoryProtection_size_eq he addr size hend hfit]
    omega
  · rw [MemoryProtection_create_page]
    exact hle
  · rw [MemoryProtection_create_page, MemoryProtection_create_size,
      MemoryProtection_size_eq he addr size hend hfit]
    omega
  · rw [MemoryProtection_create_page, MemoryProtection_create_size,
      MemoryProtection_size_eq he addr size hend hfit]
    omega

/-- C7 on a word that straddles two 4096-byte pages: the request is over
`[0x7000, 0x9000)`. -/
theorem MemoryProtection_create_outward_witness :
    (MemoryProtection.create (2 ^ 12) grantAll scenarioMachine 0x7FFC 8 7).1.page_ = 0x7000
    ∧ (MemoryProtection.create (2 ^ 12) grantAll scenarioMachine 0x7FFC 8 7).1.size_ = 0x2000
    ∧ 0x7FFC + 8 ≤ (MemoryProtection.create (2 ^ 12) grantAll scenarioMachine 0x7FFC 8 7).1.page_
        + (MemoryProtection.create (2 ^ 12) grantAll scenarioMachine 0x7FFC 8 7).1.size_ :=
  ⟨by decide, by decide,
    (MemoryProtection_create_outward 12 (by decide) grantAll scenarioMachine 0x7FFC 8 7
      (by decide) (by decide) (by decide)).2.2.2.2.2.2.1⟩

/-- C7 as stated fails: the range `[0, 2 ^ 64 - 1)` does not overflow, yet with
4096-byte pages the constructor requests a span of length `0`, which is not
positive and does not contain the range. -/
theorem MemoryProtection_create_wrap_counterexample :
    0 < 2 ^ 64 - 1 ∧ 0 + (2 ^ 64 - 1) < WORD
    ∧ (MemoryProtection.create 4096 grantAll scenarioMachine 0 (2 ^ 64 - 1) 7).1.page_ = 0
    ∧ (MemoryProtection.create 4096 grantAll scenarioMachine 0 (2 ^ 64 - 1) 7).1.size_ = 0 := by
  decide

/-! ## Pattern search -/

theorem occursAt_iff (hay needle : List Nat) (K : Nat) :
    occursAt hay needle K ↔
      K + needle.length ≤ hay.length ∧ ∀ t, t < needle.length → hay[K + t]? = needle[t]? := by
  unfold occursAt
  constructor
  · rintro ⟨h1, h2⟩
    refine ⟨h1, fun t ht => ?_⟩
    have := congrArg (fun l => l[t]?) h2
    simp only [List.getElem?_take, List.getElem?_drop, ht, if_true] at this
    exact this
  · rintro ⟨h1, h2⟩
    refine ⟨h1, ?_⟩
    apply List.ext_getElem?
    intro t
    by_cases ht : t < needle.length
    · rw [List.getElem?_take, if_pos ht, List.getElem?_drop]
      exact h2 t ht
    · rw [List.getElem?_take, if_neg ht, List.getElem?_eq_none (by omega)]

/-- The inner loop stops at the first mismatch at or after `i`, or at the end. -/
theorem matchLoop_spec (hay needle : List Nat) (p : Nat) (hp : p + needle.length ≤ hay.length) :
    ∀ (todo i : Nat) (tr : List Access), i + todo = needle.length →
      ∃ j tr1, matchLoop hay needle p todo i tr = (some j, tr1) ∧ i ≤ j ∧ j ≤ needle.length
        ∧ (∀ t, i ≤ t → t < j → hay[p + t]? = needle[t]?)
        ∧ (j < needle.length → hay[p + j]? ≠ needle[j]?) := by
  intro todo
  induction todo with
  | zero =>
    intro i tr h
    exact ⟨i, tr, rfl, le_refl _, by omega, fun t h1 h2 => by omega, fun h' => by omega⟩
  | succ todo ih =>
    intro i tr h
    have hi : i < needle.length := by omega
    have hpi : p + i < hay.length := by omega
    unfold matchLoop
    simp only [List.getElem?_eq_getElem hpi, List.getElem?_eq_getElem hi]
    by_cases hne : hay[p + i] ≠ needle[i]
    · refine ⟨i, tr ++ [Access.region (p + i), Access.pattern i], by simp [hne], le_refl _,
        by omega, fun t h1 h2 => by omega, fun _ => ?_⟩
      simpa [List.getElem?_eq_getElem hpi, List.getElem?_eq_getElem hi] using hne
    · obtain ⟨j, tr1, e, h1, h2, h3, h4⟩ := ih (i + 1)
        (tr ++ [Access.region (p + i), Access.pattern i]) (by omega)
      refine ⟨j, tr1, by simp [hne, e], by omega, h2, fun t ht1 ht2 => ?_, h4⟩
      by_cases hti : t = i
      · subst hti
        simpa [List.getElem?_eq_getElem hpi, List.getElem?_eq_getElem hi] using hne
      · exact h3 t (by omega) ht2

theorem matchLoop_full_iff (hay needle : List Nat) (p : Nat)
    (hp : p + needle.length ≤ hay.length) (tr : List Access) :
    ∃ j tr1, matchLoop hay needle p needle.length 0 tr = (some j, tr1)
      ∧ (j = needle.length ↔ occursAt hay needle p) := by
  obtain ⟨j, tr1, e, _, h2, h3, h4⟩ := matchLoop_spec hay needle p hp needle.length 0 tr (by omega)
  refine ⟨j, tr1, e, ?_⟩
  rw [occursAt_iff]
  constructor
  · intro hj
    subst hj
    exact ⟨hp, fun t ht => h3 t (Nat.zero_le _) ht⟩
  · rintro ⟨_, hall⟩
    by_contra hne
    exact h4 (by omega) (hall j (by omega))

/-- The outer loop from offset `p`: a reported offset is the least occurrence
at or after `p`, and `notFound` means there is no occurrence from `p` on. -/
theorem scanLoop_spec (hay needle : List Nat) :
    ∀ (todo p : Nat) (tr : List Access), p + todo + needle.length = hay.length + 1 →
      (∃ q, (scanLoop hay needle needle.length todo p tr).1 = SearchResult.found q
          ∧ p ≤ q ∧ occursAt hay needle q ∧ ∀ q', p ≤ q' → q' < q → ¬ occursAt hay needle q')
      ∨ ((scanLoop hay needle needle.length todo p tr).1 = SearchResult.notFound
          ∧ ∀ q', p ≤ q' → ¬ occursAt hay needle q') := by
  intro todo
  induction todo with
  | zero =>
    intro p tr h
    right
    refine ⟨rfl, fun q' hq' hocc => ?_⟩
    have := hocc.1
    omega
  | succ todo ih =>
    intro p tr h
    obtain ⟨j, tr1, e, hj⟩ := matchLoop_full_iff hay needle p (by omega) tr
    unfold scanLoop
    rw [e]
    by_cases hjm : j = needle.length
    · left
      exact ⟨p, by simp [hjm], le_refl _, hj.mp hjm, fun q' h1 h2 => by omega⟩
    · simp only [hjm, if_false]
      rcases ih (p + 1) tr1 (by omega) with ⟨q, h1, h2, h3, h4⟩ | ⟨h1, h2⟩
      · left
        refine ⟨q, h1, by omega, h3, fun q' hq1 hq2 => ?_⟩
        by_cases hq : q' = p
        · subst hq
          exact fun hocc => hjm (hj.mpr hocc)
        · exact h4 q' (by omega) hq2
      · right
        refine ⟨h1, fun q' hq1 => ?_⟩
        by_cases hq : q' = p
        · subst hq
          exact fun hocc => hjm (hj.mpr hocc)
        · exact h2 q' (by omega)

/-- What `mem_search` returns on a pattern that is neither empty nor longer
than the region. -/
theorem mem_search_spec (hay needle : List Nat) (hm : 1 ≤ needle.length)
    (hn : needle.length ≤ hay.length) :
    (∃ q, (mem_search hay needle).1 = SearchResult.found q
        ∧ occursAt hay needle q ∧ ∀ q', q' < q → ¬ occursAt hay needle q')
    ∨ ((mem_search hay needle).1 = SearchResult.notFound ∧ ∀ q', ¬ occursAt hay needle q') := by
  unfold mem_search
  have h0 : ¬ (needle.length = 0 ∨ needle.length > hay.length) := by omega
  simp only [h0, if_false]
  rcases scanLoop_spec hay needle (hay.length - needle.length + 1) 0 [] (by omega) with
    ⟨q, h1, _, h3, h4⟩ | ⟨h1, h2⟩
  · exact Or.inl ⟨q, h1, h3, fun q' hq' => h4 q' (Nat.zero_le _) hq'⟩
  · exact Or.inr ⟨h1, fun q' => h2 q' (Nat.zero_le _)⟩

/-- C8. For a pattern of length `m` with `1 ≤ m ≤ n` that occurs in the region,
`mem_search` returns the least offset at which it occurs; so when it occurs at
`K` and nowhere else, `K` is returned. `search_pattern_in_memory` returns the
same. -/
theorem mem_search_first_match (hay needle : List Nat) (hm : 1 ≤ needle.length)
    (hn : needle.length ≤ hay.length) (hex : ∃ K, occursAt hay needle K) :
    (∃ K, (mem_search hay needle).1 = SearchResult.found K ∧ occursAt hay needle K
      ∧ ∀ K', occursAt hay needle K' → K ≤ K')
    ∧ (∀ K, occursAt hay needle K → (∀ K', occursAt hay needle K' → K' = K) →
        (mem_search hay needle).1 = SearchResult.found K)
    ∧ search_pattern_in_memory hay needle = mem_search hay needle := by
  have main : ∃ K, (mem_search hay needle).1 = SearchResult.found K ∧ occursAt hay needle K
      ∧ ∀ K', occursAt hay needle K' → K ≤ K' := by
    rcases mem_search_spec hay needle hm hn with ⟨q, h1, h3, h4⟩ | ⟨_, h2⟩
    · refine ⟨q, h1, h3, fun K' hK' => ?_⟩
      by_contra hlt
      exact h4 K' (by omega) hK'
    · obtain ⟨K, hK⟩ := hex
      exact absurd hK (h2 K)
  refine ⟨main, fun K _ huniq => ?_, rfl⟩
  obtain ⟨K0, h1, h2, _⟩ := main
  rw [h1, huniq K0 h2]

/-- C8 on a region in which the pattern occurs twice: the first offset wins. -/
theorem mem_search_first_match_witness :
    (mem_search [1, 2, 3, 1, 2, 3] [2, 3]).1 = SearchResult.found 1 := by
  obtain ⟨K, h1, h2, h3⟩ := (mem_search_first_match [1, 2, 3, 1, 2, 3] [2, 3] (by decide)
    (by decide) ⟨1, by decide⟩).1
  have hle : K ≤ 1 := h3 1 (by decide)
  have hne : K ≠ 0 := by
    rintro rfl
    revert h2
    decide
  have : K = 1 := by omega
  rw [h1, this]

/-- C9. When the pattern occurs at no offset of the region, `mem_search` returns
`notFound`; and every offset it returns is an occurrence that lies wholly
inside the region. -/
theorem mem_search_absent (hay needle : List Nat) :
    ((¬ ∃ K, occursAt hay needle K) → (mem_search hay needle).1 = SearchResult.notFound)
    ∧ (∀ K, (mem_search hay needle).1 = SearchResult.found K →
        K + needle.length ≤ hay.length ∧ occursAt hay needle K) := by
  by_cases h0 : needle.length = 0 ∨ needle.length > hay.length
  · have e : mem_search hay needle = (SearchResult.notFound, []) := by
      unfold mem_search
      simp only [h0, if_true]
    rw [e]
    exact ⟨fun _ => rfl, fun K hK => by cases hK⟩
  · rcases mem_search_spec hay needle (by omega) (by omega) with ⟨q, h1, h3, _⟩ | ⟨h1, _⟩
    · refine ⟨fun hno => absurd ⟨q, h3⟩ hno, fun K hK => ?_⟩
      rw [h1] at hK
      cases hK
      exact ⟨h3.1, h3⟩
    · refine ⟨fun _ => h1, fun K hK => ?_⟩
      rw [h1] at hK
      cases hK

/-- C9 on a region without the pattern. -/
theorem mem_search_absent_witness :
    (mem_search [1, 2, 3, 1, 2, 3] [3, 3]).1 = SearchResult.notFound :=
  (mem_search_absent [1, 2, 3, 1, 2, 3] [3, 3]).1 (by
    rintro ⟨K, hK⟩
    have h := hK.1
    have hK4 : K ≤ 4 := by simpa using h
    interval_cases K <;> revert hK <;> decide)

/-- C10. An empty pattern and a pattern longer than the region both make
`mem_search` return `notFound` with no byte of the region or of the pattern
read. -/
theorem mem_search_degenerate (hay needle : List Nat)
    (h : needle.length = 0 ∨ hay.length < needle.length) :
    mem_search hay needle = (SearchResult.notFound, []) := by
  unfold mem_search
  have h0 : needle.length = 0 ∨ needle.length > hay.length := h
  simp only [h0, if_true]

/-- C10 on an empty pattern and on a pattern longer than the region. -/
theorem mem_search_degenerate_witness :
    mem_search [1, 2] [] = (SearchResult.notFound, [])
    ∧ mem_search [1, 2] [1, 2, 3] = (SearchResult.notFound, []) :=
  ⟨mem_search_degenerate [1, 2] [] (by decide),
   mem_search_degenerate [1, 2] [1, 2, 3] (by decide)⟩

/-! ## Bounds of the reads of the pattern search -/

theorem matchLoop_trace (hay needle : List Nat) (p : Nat)
    (hp : p + needle.length ≤ hay.length) :
    ∀ (todo i : Nat) (tr : List Access), i + todo = needle.length →
      (∀ a ∈ tr, inBounds hay.length needle.length a) →
      (matchLoop hay needle p todo i tr).1 ≠ none
      ∧ ∀ a ∈ (matchLoop hay needle p todo i tr).2, inBounds hay.length needle.length a := by
  intro todo
  induction todo with
  | zero =>
    intro i tr _ htr
    exact ⟨by simp [matchLoop], by simpa [matchLoop] using htr⟩
  | succ todo ih =>
    intro i tr h htr
    have hi : i < needle.length := by omega
    have hpi : p + i < hay.length := by omega
    have htr1 : ∀ a ∈ tr ++ [Access.region (p + i), Access.pattern i],
        inBounds hay.length needle.length a := by
      intro a ha
      rcases List.mem_append.mp ha with h1 | h1
      · exact htr a h1
      · simp only [List.mem_cons, List.mem_singleton, List.not_mem_nil, or_false] at h1
        rcases h1 with rfl | rfl
        · exact hpi
        · exact hi
    unfold matchLoop
    simp only [List.getElem?_eq_getElem hpi, List.getElem?_eq_getElem hi]
    by_cases hne : hay[p + i] ≠ needle[i]
    · rw [if_pos hne]
      exact ⟨by simp, htr1⟩
    · rw [if_neg hne]
      exact ih (i + 1) _ (by omega) htr1

theorem scanLoop_trace (hay needle : List Nat) :
    ∀ (todo p : Nat) (tr : List Access), p + todo + needle.length = hay.length + 1 →
      (∀ a ∈ tr, inBounds hay.length needle.length a) →
      (scanLoop hay needle needle.length todo p tr).1 ≠ SearchResult.fault
      ∧ ∀ a ∈ (scanLoop hay needle needle.length todo p tr).2,
          inBounds hay.length needle.length a := by
  intro todo
  induction todo with
  | zero =>
    intro p tr _ htr
    exact ⟨by simp [scanLoop], by simpa [scanLoop] using htr⟩
  | succ todo ih =>
    intro p tr h htr
    obtain ⟨h1, h2⟩ := matchLoop_trace hay needle p (by omega) needle.length 0 tr (by omega) htr
    unfold scanLoop
    rcases hm : matchLoop hay needle p needle.length 0 tr with ⟨r, tr1⟩
    rw [hm] at h1 h2
    cases r with
    | none => exact absurd rfl h1
    | some j =>
      by_cases hj : j = needle.length
      · simp only [hj, if_true]
        exact ⟨by simp, h2⟩
      · simp only [hj, if_false]
        exact ih (p + 1) tr1 (by omega) h2

/-- C11. For every region of length `n` and pattern of length `m`, every region
byte `mem_search` reads has index below `n`, every pattern byte it reads has
index below `m`, and the out-of-range branch of the indexing is never taken:
the result is never `fault`. -/
theorem mem_search_in_bounds (hay needle : List Nat) :
    (mem_search hay needle).1 ≠ SearchResult.fault
    ∧ (∀ i, Access.region i ∈ (mem_search hay needle).2 → i < hay.length)
    ∧ (∀ i, Access.pattern i ∈ (mem_search hay needle).2 → i < needle.length) := by
  have key : (mem_search hay needle).1 ≠ SearchResult.fault
      ∧ ∀ a ∈ (mem_search hay needle).2, inBounds hay.length needle.length a := by
    unfold mem_search
    by_cases h0 : needle.length = 0 ∨ needle.length > hay.length
    · simp only [h0, if_true]
      exact ⟨by simp, by simp⟩
    · simp only [h0, if_false]
      exact scanLoop_trace hay needle (hay.length - needle.length + 1) 0 [] (by omega)
        (by simp)
  exact ⟨key.1, fun i hi => key.2 _ hi, fun i hi => key.2 _ hi⟩

/-- C11 on a search that runs to the last admissible offset: the reads are
listed and the last region index read is `n - 1`. -/
theorem mem_search_in_bounds_witness :
    (mem_search [1, 2, 3] [3, 4]).2
        = [Access.region 0, Access.pattern 0, Access.region 1, Access.pattern 0]
    ∧ (mem_search [1, 2, 3] [2, 3]).2
        = [Access.region 0, Access.pattern 0, Access.region 1, Access.pattern 0,
           Access.region 2, Access.pattern 1]
    ∧ (mem_search [1, 2, 3] [2, 3]).1 ≠ SearchResult.fault :=
  ⟨by decide, by decide, (mem_search_in_bounds [1, 2, 3] [2, 3]).1⟩

/-! ## Page alignment of addresses -/

/-- C12. For every word-sized address `A` and every power-of-two page size
`P = 2 ^ e`, `page_align_down A ≤ A < page_align_down A + P` and
`page_align_down A` is a multiple of `P`. -/
theorem page_align_down_spec (e : Nat) (he : e < 64) (A : Nat) (hA : A < WORD) :
    page_align_down (2 ^ e) A ≤ A
    ∧ A < page_align_down (2 ^ e) A + 2 ^ e
    ∧ page_align_down (2 ^ e) A % 2 ^ e = 0 := by
  refine ⟨page_align_down_le he A hA, lt_page_align_down_add he A hA, ?_⟩
  rw [page_align_down_eq he A hA]
  exact Nat.mul_mod_right _ _

/-- C12 on the address `0x7FFC` with 4096-byte pages. -/
theorem page_align_down_spec_witness :
    page_align_down (2 ^ 12) 0x7FFC = 0x7000
    ∧ page_align_down (2 ^ 12) 0x7FFC ≤ 0x7FFC
    ∧ 0x7FFC < page_align_down (2 ^ 12) 0x7FFC + 2 ^ 12
    ∧ page_align_down (2 ^ 12) 0x7FFC % 2 ^ 12 = 0 :=
  ⟨by decide, page_align_down_spec 12 (by decide) 0x7FFC (by decide)⟩

theorem sub64_add64_lt (a b c : Nat) : sub64 (add64 a b) c < WORD := by
  unfold sub64
  exact Nat.mod_lt _ (by unfold WORD; decide)

theorem page_align_up_eq {e : Nat} (he : e < 64) (A : Nat) :
    page_align_up (2 ^ e) A = 2 ^ e * (sub64 (add64 A (2 ^ e)) 1 / 2 ^ e) := by
  unfold page_align_up
  exact and_not64_pow he _ (sub64_add64_lt _ _ _)

theorem page_align_up_val {e : Nat} (A : Nat) (hfit : A + 2 ^ e ≤ WORD) :
    sub64 (add64 A (2 ^ e)) 1 = A + 2 ^ e - 1 := by
  have hP0 : 0 < 2 ^ e := Nat.two_pow_pos e
  unfold sub64 add64
  unfold WORD at *
  omega

/-- C13, as the code has it. For every power-of-two page size `P = 2 ^ e` and
every address `A` the result of `page_align_up` is a multiple of `P`; and when
`A + P ≤ 2 ^ 64`, so that the rounded address is a machine word,
`page_align_up A - P < A ≤ page_align_up A` (the first inequality written
`page_align_up A < A + P`). -/
theorem page_align_up_spec (e : Nat) (he : e < 64) (A : Nat) :
    page_align_up (2 ^ e) A % 2 ^ e = 0
    ∧ (A + 2 ^ e ≤ WORD →
        A ≤ page_align_up (2 ^ e) A ∧ page_align_up (2 ^ e) A < A + 2 ^ e) := by
  have hP0 : 0 < 2 ^ e := Nat.two_pow_pos e
  refine ⟨?_, fun hfit => ?_⟩
  · rw [page_align_up_eq he A]
    exact Nat.mul_mod_right _ _
  · have hdm := Nat.div_add_mod (A + 2 ^ e - 1) (2 ^ e)
    have hml := Nat.mod_lt (A + 2 ^ e - 1) hP0
    rw [page_align_up_eq he A, page_align_up_val A hfit]
    constructor <;> omega

/-- C13 on the address `0x7001` with 4096-byte pages. -/
theorem page_align_up_spec_witness :
    page_align_up (2 ^ 12) 0x7001 = 0x8000
    ∧ page_align_up (2 ^ 12) 0x7001 % 2 ^ 12 = 0
    ∧ 0x7001 ≤ page_align_up (2 ^ 12) 0x7001
    ∧ page_align_up (2 ^ 12) 0x7001 < 0x7001 + 2 ^ 12 :=
  ⟨by decide, (page_align_up_spec 12 (by decide) 0x7001).1,
    (page_align_up_spec 12 (by decide) 0x7001).2 (by decide)⟩

/-- C13 as stated fails: for the word-sized address `2 ^ 64 - 1` and 4096-byte
pages `page_align_up` wraps to `0`, which is below the address. -/
theorem page_align_up_wrap_counterexample :
    2 ^ 64 - 1 < WORD
    ∧ page_align_up 4096 (2 ^ 64 - 1) = 0
    ∧ ¬ (2 ^ 64 - 1 ≤ page_align_up 4096 (2 ^ 64 - 1)) := by
  decide

/-! ## Executable memory -/

theorem toUInt64_toInt64 (a : Nat) (ha : a < 2 ^ 63) : toUInt64 (toInt64 (a : Int)) = a := by
  unfold toUInt64 toInt64
  have h : ((a : Int) + 2 ^ 63) % 2 ^ 64 - 2 ^ 63 = (a : Int) := by omega
  rw [h]
  omega

theorem toUInt64_neg_one : toUInt64 (-1) = WORD - 1 := by decide

theorem toInt32_neg_one : toInt32 (-1) = -1 := by decide

theorem lowlevel_mmap_error (E : Nat) (s : Machine) (addr length prot flags : Nat) (fd : Int)
    (offset : Nat) :
    lowlevel_mmap (MmapOutcome.error E) s addr length prot flags fd offset
      = (MAP_FAILED, { s with errno := 1 }) := by
  unfold lowlevel_mmap syscall_mmap
  simp only [toUInt64_neg_one, toInt32_neg_one]
  have h : WORD - 1 ≥ WORD - 4095 := by unfold WORD; omega
  simp [h]

theorem lowlevel_mmap_mapped (a : Nat) (ha : a < 2 ^ 63) (s : Machine)
    (addr length prot flags : Nat) (fd : Int) (offset : Nat) :
    lowlevel_mmap (MmapOutcome.mapped a) s addr length prot flags fd offset
      = (a, { s with mem := fun x => if a ≤ x ∧ x < a + length then 0 else s.mem x,
                     prot := fun x => if a ≤ x ∧ x < a + length then prot else s.prot x }) := by
  unfold lowlevel_mmap syscall_mmap
  simp only [toUInt64_toInt64 a ha]
  have h : ¬ (a ≥ WORD - 4095) := by unfold WORD; omega
  simp [h]

theorem lowlevel_alloc_executable_error (E : Nat) (s : Machine) (size : Nat) :
    lowlevel_alloc_executable (MmapOutcome.error E) s size = (0, { s with errno := 1 }) := by
  rw [lowlevel_alloc_executable, lowlevel_mmap_error]
  exact if_pos rfl

theorem lowlevel_alloc_executable_mapped (a : Nat) (ha : a < 2 ^ 63) (s : Machine) (size : Nat) :
    lowlevel_alloc_executable (MmapOutcome.mapped a) s size
      = (a, { s with mem := fun x => if a ≤ x ∧ x < a + size then 0 else s.mem x,
                     prot := fun x => if a ≤ x ∧ x < a + size then
                       PROT_READ ||| PROT_WRITE ||| PROT_EXEC else s.prot x }) := by
  have h : a ≠ MAP_FAILED := by unfold MAP_FAILED WORD; omega
  rw [lowlevel_alloc_executable, lowlevel_mmap_mapped a ha]
  exact if_neg h

/-- The flush loop comes to an end when the range lies below the top 64 bytes of
the address space and the bound covers one loop test per line and one more. -/
theorem flushLoop_isSome (end_ : Nat) (op : Nat → CacheOp) (hend : end_ + 64 ≤ WORD) :
    ∀ (fuel p : Nat), (end_ - p + 63) / 64 + 1 ≤ fuel →
      ∃ l, flushLoop end_ op fuel p = some l := by
  intro fuel
  induction fuel with
  | zero => intro p h; omega
  | succ fuel ih =>
    intro p h
    unfold flushLoop
    by_cases hp : p < end_
    · have e : add64 p 64 = p + 64 := by
        unfold add64
        exact Nat.mod_eq_of_lt (by omega)
      obtain ⟨l, hl⟩ := ih (p + 64) (by omega)
      exact ⟨op p :: l, by simp [hp, e, hl]⟩
    · exact ⟨[], by simp [hp]⟩

theorem icache_flush_isSome (arch : Arch) (addr len : Nat) (h : addr + len + 64 ≤ WORD) :
    ∃ ops, icache_flush arch addr len = some ops := by
  cases arch with
  | arm =>
    have e : add64 addr len = addr + len := by
      unfold add64
      exact Nat.mod_eq_of_lt (by omega)
    obtain ⟨l1, h1⟩ := flushLoop_isSome (addr + len) CacheOp.dcCvau h (len + 1) addr (by omega)
    obtain ⟨l2, h2⟩ := flushLoop_isSome (addr + len) CacheOp.icIvau h (len + 1) addr (by omega)
    refine ⟨l1 ++ [CacheOp.dsbIsh] ++ l2 ++ [CacheOp.dsbIsh, CacheOp.isb], ?_⟩
    simp only [icache_flush, e, h1, h2]
  | x86 => exact ⟨_, rfl⟩
  | riscv => exact ⟨_, rfl⟩
  | other => exact ⟨_, rfl⟩

theorem inject_shellcode_mapped (arch : Arch) (s : Machine) (code n a : Nat)
    (ops : List CacheOp) (ha : a < 2 ^ 63) (ha0 : a ≠ 0)
    (hops : icache_flush arch a n = some ops) :
    inject_shellcode arch (MmapOutcome.mapped a) s code n
      = some (a,
          { mem := mem_copy_safe (fun x => if a ≤ x ∧ x < a + n then 0 else s.mem x) a code n,
            prot := fun x => if a ≤ x ∧ x < a + n then
              PROT_READ ||| PROT_WRITE ||| PROT_EXEC else s.prot x,
            errno := s.errno, calls := s.calls },
          ops) := by
  rw [inject_shellcode, lowlevel_alloc_executable_mapped a ha]
  simp only [ha0, if_false, hops]

theorem inject_shellcode_error (arch : Arch) (s : Machine) (code n E : Nat) :
    inject_shellcode arch (MmapOutcome.error E) s code n
      = some (0, { s with errno := 1 }, []) := by
  rw [inject_shellcode, lowlevel_alloc_executable_error]
  simp only [if_true]

/-- C14. For a code blob of `n > 0` bytes at `code`: when the kernel grants the
mapping at a user-space address `a` whose region does not overlap the blob,
`inject_shellcode` returns the non-null pointer `a`, and right after the call
the `n` bytes at `a` equal the `n` bytes of the blob, which are themselves
untouched; when the kernel refuses the mapping, `inject_shellcode` returns null,
issues no cache instruction and leaves memory as it was. -/
theorem inject_shellcode_roundtrip (arch : Arch) (s : Machine) (code n a E : Nat)
    (hn : 0 < n) (ha : 0 < a) (hfit : a + n + 64 ≤ 2 ^ 63)
    (hdisj : code + n ≤ a ∨ a + n ≤ code) :
    (∃ s1 ops, inject_shellcode arch (MmapOutcome.mapped a) s code n = some (a, s1, ops)
      ∧ a ≠ 0
      ∧ (∀ i, i < n → byteAt s1.mem (a + i) = byteAt s.mem (code + i))
      ∧ (∀ i, i < n → s1.mem (code + i) = s.mem (code + i)))
    ∧ (∃ s1, inject_shellcode arch (MmapOutcome.error E) s code n = some (0, s1, [])
      ∧ s1.mem = s.mem) := by
  have hpos : 0 < n := hn
  constructor
  · obtain ⟨ops, hops⟩ := icache_flush_isSome arch a n (by unfold WORD; omega)
    have ha0 : a ≠ 0 := by omega
    refine ⟨_, ops, inject_shellcode_mapped arch s code n a ops (by omega) ha0 hops, ha0,
      ?_, ?_⟩
    · intro i hi
      have h1 : a ≤ a + i ∧ a + i < a + n := by omega
      have h2 : ¬ (a ≤ code + i ∧ code + i < a + n) := by omega
      show byteAt (mem_copy_safe (fun x => if a ≤ x ∧ x < a + n then 0 else s.mem x) a code n)
        (a + i) = byteAt s.mem (code + i)
      unfold mem_copy_safe builtin_memcpy byteAt
      show (if a ≤ a + i ∧ a + i < a + n then
          (if a ≤ code + (a + i - a) ∧ code + (a + i - a) < a + n then 0
            else s.mem (code + (a + i - a))) % 256
          else (if a ≤ a + i ∧ a + i < a + n then 0 else s.mem (a + i))) % 256
        = s.mem (code + i) % 256
      rw [if_pos h1, Nat.add_sub_cancel_left, if_neg h2, Nat.mod_mod]
    · intro i hi
      have h2 : ¬ (a ≤ code + i ∧ code + i < a + n) := by omega
      show mem_copy_safe (fun x => if a ≤ x ∧ x < a + n then 0 else s.mem x) a code n
        (code + i) = s.mem (code + i)
      unfold mem_copy_safe builtin_memcpy
      show (if a ≤ code + i ∧ code + i < a + n then _ else
          (if a ≤ code + i ∧ code + i < a + n then 0 else s.mem (code + i)))
        = s.mem (code + i)
      rw [if_neg h2, if_neg h2]
  · exact ⟨{ s with errno := 1 }, inject_shellcode_error arch s code n E, rfl⟩

/-- C14 on a four-byte blob at `0x7000` (the bytes of `0xAAAABBBB`), a mapping
granted at `0x10000` and a mapping refused with `ENOMEM`, on the ARM variant. -/
theorem inject_shellcode_roundtrip_witness :
    (∃ s1 ops, inject_shellcode Arch.arm (MmapOutcome.mapped 0x10000) scenarioMachine 0x7000 4
        = some (0x10000, s1, ops)
      ∧ 0x10000 ≠ 0
      ∧ (∀ i, i < 4 → byteAt s1.mem (0x10000 + i) = byteAt scenarioMachine.mem (0x7000 + i))
      ∧ (∀ i, i < 4 → s1.mem (0x7000 + i) = scenarioMachine.mem (0x7000 + i)))
    ∧ (∃ s1, inject_shellcode Arch.arm (MmapOutcome.error 12) scenarioMachine 0x7000 4
        = some (0, s1, [])
      ∧ s1.mem = scenarioMachine.mem) :=
  inject_shellcode_roundtrip Arch.arm scenarioMachine 0x7000 4 0x10000 12
    (by decide) (by decide) (by decide) (by decide)

/-! ## Cache maintenance -/

/-- C15 on the code. For the range `[60, 68)` on the ARM variant both
`icache_flush` and `lowlevel_flush_icache` issue `dc cvau` and `ic ivau` on the
address `60` only: the cache line `[64, 128)` holds the bytes `64 .. 67` of the
range, and no instruction is issued on an address inside that line. -/
theorem icache_flush_misses_line :
    icache_flush Arch.arm 60 8
        = some [CacheOp.dcCvau 60, CacheOp.dsbIsh, CacheOp.icIvau 60, CacheOp.dsbIsh,
            CacheOp.isb]
    ∧ lowlevel_flush_icache Arch.arm 60 8
        = some [CacheOp.dcCvau 60, CacheOp.dsbIsh, CacheOp.icIvau 60, CacheOp.dsbIsh,
            CacheOp.isb]
    ∧ (60 ≤ 64 ∧ 64 < 60 + 8)
    ∧ (∀ p, 64 ≤ p → p < 128 →
        CacheOp.dcCvau p ∉ [CacheOp.dcCvau 60, CacheOp.dsbIsh, CacheOp.icIvau 60,
            CacheOp.dsbIsh, CacheOp.isb]
        ∧ CacheOp.icIvau p ∉ [CacheOp.dcCvau 60, CacheOp.dsbIsh, CacheOp.icIvau 60,
            CacheOp.dsbIsh, CacheOp.isb]) := by
  refine ⟨by decide, by decide, by decide, fun p h1 h2 => ?_⟩
  have hp : p ≠ 60 := by omega
  simp [hp]

/-! ## Error numbers -/

/-- C16 on the code. With `syscall()` returning `-1` and setting `errno` to the
kernel's error number `E ≥ 1`, a failing `lowlevel_mprotect`, `lowlevel_munmap`
and `lowlevel_mmap` return `-1`, `-1` and `MAP_FAILED`, and each leaves `errno`
at `1`, the negation of the `-1` it received, whatever `E` was. -/
theorem lowlevel_errno_is_one (k : Kernel) (s : Machine) (E addr len prot flags : Nat)
    (fd : Int) (offset : Nat) (hE : 1 ≤ E) (hk : k s.calls.length = E) :
    ((lowlevel_mprotect k s addr len prot).1 = -1
      ∧ (lowlevel_mprotect k s addr len prot).2.errno = 1)
    ∧ ((lowlevel_munmap E s addr len).1 = -1
      ∧ (lowlevel_munmap E s addr len).2.errno = 1)
    ∧ ((lowlevel_mmap (MmapOutcome.error E) s addr len prot flags fd offset).1 = MAP_FAILED
      ∧ (lowlevel_mmap (MmapOutcome.error E) s addr len prot flags fd offset).2.errno = 1) := by
  have hE0 : E ≠ 0 := by omega
  have hk0 : k s.calls.length ≠ 0 := by omega
  refine ⟨⟨?_, ?_⟩, ⟨?_, ?_⟩, ⟨?_, ?_⟩⟩
  · rw [lowlevel_mprotect_fst]; simp [hk0]
  · unfold lowlevel_mprotect syscall_mprotect
    simp [hk0]
  · unfold lowlevel_munmap syscall_munmap
    simp [hE0]
  · unfold lowlevel_munmap syscall_munmap
    simp [hE0]
  · rw [lowlevel_mmap_error]
  · rw [lowlevel_mmap_error]

/-- C16 at `EACCES` (13): the three wrappers fail with `errno` equal to `1`. -/
theorem lowlevel_errno_is_one_witness :
    ((lowlevel_mprotect denyAll scenarioMachine 0x7000 4096 7).1 = -1
      ∧ (lowlevel_mprotect denyAll scenarioMachine 0x7000 4096 7).2.errno = 1)
    ∧ ((lowlevel_munmap 13 scenarioMachine 0x7000 4096).1 = -1
      ∧ (lowlevel_munmap 13 scenarioMachine 0x7000 4096).2.errno = 1)
    ∧ ((lowlevel_mmap (MmapOutcome.error 13) scenarioMachine 0x7000 4096 7 0x22 (-1) 0).1
          = MAP_FAILED
      ∧ (lowlevel_mmap (MmapOutcome.error 13) scenarioMachine 0x7000 4096 7 0x22 (-1) 0).2.errno
          = 1) :=
  lowlevel_errno_is_one denyAll scenarioMachine 13 0x7000 4096 7 0x22 (-1) 0 (by decide) rfl

/-! ## Remote transfer -/

/-- C17. For every process id, addresses and size, `read_remote_memory` and
`write_remote_memory` issue exactly one transfer request, with one local and
one remote descriptor, both of length `size`, and flags `0`, and return what
`syscall()` returned for that request, unchanged: a short count stays that
count, a negative result stays negative, and no second request is made. -/
theorem remote_transfer_verbatim (kern : VmRequest → Int) (pid : Int)
    (local_buf remote_addr size : Nat) :
    (read_remote_memory kern pid local_buf remote_addr size).2
        = [⟨VmDirection.process_vm_readv, pid, [⟨local_buf, size⟩], 1,
            [⟨remote_addr, size⟩], 1, 0⟩]
    ∧ (read_remote_memory kern pid local_buf remote_addr size).1
        = kern ⟨VmDirection.process_vm_readv, pid, [⟨local_buf, size⟩], 1,
            [⟨remote_addr, size⟩], 1, 0⟩
    ∧ (write_remote_memory kern pid local_buf remote_addr size).2
        = [⟨VmDirection.process_vm_writev, pid, [⟨local_buf, size⟩], 1,
            [⟨remote_addr, size⟩], 1, 0⟩]
    ∧ (write_remote_memory kern pid local_buf remote_addr size).1
        = kern ⟨VmDirection.process_vm_writev, pid, [⟨local_buf, size⟩], 1,
            [⟨remote_addr, size⟩], 1, 0⟩ := by
  unfold read_remote_memory write_remote_memory lowlevel_read_process_memory
    lowlevel_write_process_memory
  exact ⟨rfl, rfl, rfl, rfl⟩

/-- C17 with a kernel that moves 3 of the 8 bytes asked for on a read and
refuses a write: the callers see `3` and `-1`. -/
theorem remote_transfer_verbatim_witness :
    (read_remote_memory (fun r => if r.nr = VmDirection.process_vm_readv then 3 else -1)
        42 0x7000 0x9000 8).1 = 3
    ∧ (write_remote_memory (fun r => if r.nr = VmDirection.process_vm_readv then 3 else -1)
        42 0x7000 0x9000 8).1 = -1 := by
  have h := remote_transfer_verbatim
    (fun r => if r.nr = VmDirection.process_vm_readv then 3 else -1) 42 0x7000 0x9000 8
  refine ⟨?_, ?_⟩
  · rw [h.2.1]; decide
  · rw [h.2.2.2]; decide

/-! ## Copy and compare -/

theorem byteAt_lt (m : Nat → Nat) (a : Nat) : byteAt m a < 256 :=
  Nat.mod_lt _ (by decide)

/-- The copy loop from index `i`: the bytes `dest + i .. dest + i + todo` take
the source bytes, every other cell is kept. -/
theorem memcpyLoop_spec (dest src n : Nat) (hd : dest + n ≤ src ∨ src + n ≤ dest) :
    ∀ (todo i : Nat) (m : Nat → Nat), i + todo ≤ n → ∀ x,
      memcpyLoop dest src todo i m x
        = if dest + i ≤ x ∧ x < dest + i + todo then byteAt m (src + (x - dest)) else m x := by
  intro todo
  induction todo with
  | zero =>
    intro i m _ x
    have h : ¬ (dest + i ≤ x ∧ x < dest + i + 0) := by omega
    rw [if_neg h]
    rfl
  | succ todo ih =>
    intro i m h x
    unfold memcpyLoop
    rw [ih (i + 1) _ (by omega) x]
    by_cases hx : x = dest + i
    · subst hx
      have h1 : ¬ (dest + (i + 1) ≤ dest + i ∧ dest + i < dest + (i + 1) + todo) := by omega
      have h2 : dest + i ≤ dest + i ∧ dest + i < dest + i + (todo + 1) := by omega
      rw [if_neg h1, if_pos h2, if_pos rfl, Nat.add_sub_cancel_left]
    · by_cases hin : dest + (i + 1) ≤ x ∧ x < dest + (i + 1) + todo
      · have h2 : dest + i ≤ x ∧ x < dest + i + (todo + 1) := by omega
        have h3 : src + (x - dest) ≠ dest + i := by omega
        rw [if_pos hin, if_pos h2]
        unfold byteAt
        show (if src + (x - dest) = dest + i then m (src + i) % 256
          else m (src + (x - dest))) % 256 = m (src + (x - dest)) % 256
        rw [if_neg h3]
      · have h2 : ¬ (dest + i ≤ x ∧ x < dest + i + (todo + 1)) := by omega
        rw [if_neg hin, if_neg h2, if_neg hx]

/-- The compare loop from index `i`: the result is `0` when the remaining bytes
agree, and otherwise the difference at the first index where they differ. -/
theorem memcmpLoop_spec (m : Nat → Nat) (s1 s2 : Nat) :
    ∀ (todo i : Nat),
      ((∀ t, i ≤ t → t < i + todo → byteAt m (s1 + t) = byteAt m (s2 + t))
        ∧ memcmpLoop m s1 s2 todo i = 0)
      ∨ ∃ j, i ≤ j ∧ j < i + todo
          ∧ (∀ t, i ≤ t → t < j → byteAt m (s1 + t) = byteAt m (s2 + t))
          ∧ byteAt m (s1 + j) ≠ byteAt m (s2 + j)
          ∧ memcmpLoop m s1 s2 todo i = (byteAt m (s1 + j) : Int) - (byteAt m (s2 + j) : Int) := by
  intro todo
  induction todo with
  | zero =>
    intro i
    exact Or.inl ⟨fun t h1 h2 => by omega, rfl⟩
  | succ todo ih =>
    intro i
    unfold memcmpLoop
    by_cases hne : byteAt m (s1 + i) ≠ byteAt m (s2 + i)
    · right
      exact ⟨i, le_refl _, by omega, fun t h1 h2 => by omega, hne, by rw [if_pos hne]⟩
    · rw [if_neg hne]
      have heq : byteAt m (s1 + i) = byteAt m (s2 + i) := by
        by_contra h
        exact hne h
      rcases ih (i + 1) with ⟨h1, h2⟩ | ⟨j, h1, h2, h3, h4, h5⟩
      · left
        refine ⟨fun t ht1 ht2 => ?_, h2⟩
        by_cases hti : t = i
        · subst hti; exact heq
        · exact h1 t (by omega) (by omega)
      · right
        refine ⟨j, by omega, by omega, fun t ht1 ht2 => ?_, h4, h5⟩
        by_cases hti : t = i
        · subst hti; exact heq
        · exact h3 t (by omega) ht2

theorem lowlevel_memcmp_eq_zero_iff (m : Nat → Nat) (a b k : Nat) :
    lowlevel_memcmp m a b k = 0 ↔ ∀ i, i < k → byteAt m (a + i) = byteAt m (b + i) := by
  unfold lowlevel_memcmp
  rcases memcmpLoop_spec m a b k 0 with ⟨h1, h2⟩ | ⟨j, _, h2, _, h4, h5⟩
  · exact ⟨fun _ i hi => h1 i (Nat.zero_le _) (by omega), fun _ => h2⟩
  · constructor
    · intro h0
      rw [h5] at h0
      exact absurd (by omega) h4
    · intro hall
      exact absurd (hall j (by omega)) h4

theorem lowlevel_memcmp_first_diff (m : Nat → Nat) (a b k j : Nat) (hj : j < k)
    (hbefore : ∀ i, i < j → byteAt m (a + i) = byteAt m (b + i))
    (hdiff : byteAt m (a + j) ≠ byteAt m (b + j)) :
    lowlevel_memcmp m a b k = (byteAt m (a + j) : Int) - (byteAt m (b + j) : Int) := by
  unfold lowlevel_memcmp
  rcases memcmpLoop_spec m a b k 0 with ⟨h1, _⟩ | ⟨j', _, h2, h3, h4, h5⟩
  · exact absurd (h1 j (Nat.zero_le _) (by omega)) hdiff
  · have hjj : j' = j := by
      rcases Nat.lt_trichotomy j' j with h | h | h
      · exact absurd (hbefore j' h) h4
      · exact h
      · exact absurd (h3 j (Nat.zero_le _) h) hdiff
    rw [h5, hjj]

/-- C18. After `lowlevel_memcpy(dest, src, n)` on ranges that do not overlap, the
first `n` bytes at `dest` equal those at `src`, every cell outside
`[dest, dest + n)` is unchanged, and `lowlevel_memcmp(dest, src, n)` returns `0`.
In general `lowlevel_memcmp(a, b, k)` returns `0` exactly when the first `k`
bytes agree, and otherwise the difference of the two unsigned bytes at the
first index where they differ. -/
theorem memcpy_then_memcmp (m : Nat → Nat) (dest src n : Nat)
    (hd : dest + n ≤ src ∨ src + n ≤ dest) :
    (∀ i, i < n → byteAt (lowlevel_memcpy m dest src n) (dest + i) = byteAt m (src + i))
    ∧ (∀ x, ¬ (dest ≤ x ∧ x < dest + n) → lowlevel_memcpy m dest src n x = m x)
    ∧ lowlevel_memcmp (lowlevel_memcpy m dest src n) dest src n = 0
    ∧ (∀ (mm : Nat → Nat) (a b k : Nat),
        lowlevel_memcmp mm a b k = 0 ↔ ∀ i, i < k → byteAt mm (a + i) = byteAt mm (b + i))
    ∧ (∀ (mm : Nat → Nat) (a b k j : Nat), j < k →
        (∀ i, i < j → byteAt mm (a + i) = byteAt mm (b + i)) →
        byteAt mm (a + j) ≠ byteAt mm (b + j) →
        lowlevel_memcmp mm a b k = (byteAt mm (a + j) : Int) - (byteAt mm (b + j) : Int)) := by
  have hcopy : ∀ x, lowlevel_memcpy m dest src n x
      = if dest ≤ x ∧ x < dest + n then byteAt m (src + (x - dest)) else m x := by
    intro x
    have h := memcpyLoop_spec dest src n hd n 0 m (by omega) x
    simpa [lowlevel_memcpy] using h
  have hdest : ∀ i, i < n →
      byteAt (lowlevel_memcpy m dest src n) (dest + i) = byteAt m (src + i) := by
    intro i hi
    have h1 : dest ≤ dest + i ∧ dest + i < dest + n := by omega
    unfold byteAt
    rw [hcopy (dest + i), if_pos h1, Nat.add_sub_cancel_left]
    unfold byteAt
    exact Nat.mod_mod _ _
  have hout : ∀ x, ¬ (dest ≤ x ∧ x < dest + n) → lowlevel_memcpy m dest src n x = m x := by
    intro x hx
    rw [hcopy x, if_neg hx]
  refine ⟨hdest, hout, ?_, lowlevel_memcmp_eq_zero_iff, lowlevel_memcmp_first_diff⟩
  rw [lowlevel_memcmp_eq_zero_iff]
  intro i hi
  rw [hdest i hi]
  unfold byteAt
  rw [hout (src + i) (by omega)]

/-- C18 on the four bytes `BB BB AA AA` at `0x7000`: copied to `0x9000` they
compare equal, and comparing them with the bytes two further on yields
`0xBB - 0xAA`. -/
theorem memcpy_then_memcmp_witness :
    lowlevel_memcmp (lowlevel_memcpy scenarioMachine.mem 0x9000 0x7000 4) 0x9000 0x7000 4 = 0
    ∧ lowlevel_memcmp scenarioMachine.mem 0x7000 0x7002 2 = 0xBB - 0xAA :=
  ⟨(memcpy_then_memcmp scenarioMachine.mem 0x9000 0x7000 4 (by decide)).2.2.1, by decide⟩

/-! ## Compare-and-swap -/

theorem mem_read32_write32 (m : Nat → Nat) (a v : Nat) :
    mem_read32 (mem_write32 m a v) a = v % 2 ^ 32 := by
  unfold mem_read32 mem_write32
  have h : ∀ i, i < 4 → (a ≤ a + i ∧ a + i < a + 4) := by intro i hi; omega
  simp only [h 1 (by omega), h 2 (by omega), h 3 (by omega), Nat.add_sub_cancel_left, if_true,
    and_self, le_refl, Nat.lt_add_of_pos_right, Nat.sub_self, Nat.zero_lt_succ]
  norm_num
  omega

/-- C19. `asm_atomic_cas32` and `asm_atomic_cas_ptr` return non-zero exactly when
the cell holds the expected value; then the cell holds the desired value
afterwards, and otherwise memory, the cell included, is as before. -/
theorem atomic_cas_spec (m : Nat → Nat) (ptr e d32 d : Nat) (hd32 : d32 < 2 ^ 32)
    (hd : d < WORD) :
    (((asm_atomic_cas32 m ptr e d32).1 ≠ 0 ↔ mem_read32 m ptr = e)
      ∧ (mem_read32 m ptr = e → mem_read32 (asm_atomic_cas32 m ptr e d32).2 ptr = d32)
      ∧ (mem_read32 m ptr ≠ e → (asm_atomic_cas32 m ptr e d32).2 = m))
    ∧ (((asm_atomic_cas_ptr m ptr e d).1 ≠ 0 ↔ mem_read64 m ptr = e)
      ∧ (mem_read64 m ptr = e → mem_read64 (asm_atomic_cas_ptr m ptr e d).2 ptr = d)
      ∧ (mem_read64 m ptr ≠ e → (asm_atomic_cas_ptr m ptr e d).2 = m)) := by
  refine ⟨⟨?_, ?_, ?_⟩, ⟨?_, ?_, ?_⟩⟩
  · unfold asm_atomic_cas32
    by_cases h : mem_read32 m ptr = e <;> simp [h]
  · intro h
    unfold asm_atomic_cas32
    rw [if_pos h]
    exact (mem_read32_write32 m ptr d32).trans (Nat.mod_eq_of_lt hd32)
  · intro h
    unfold asm_atomic_cas32
    rw [if_neg h]
  · unfold asm_atomic_cas_ptr
    by_cases h : mem_read64 m ptr = e <;> simp [h]
  · intro h
    unfold asm_atomic_cas_ptr
    rw [if_pos h]
    exact (mem_read64_write64 m ptr d).trans (Nat.mod_eq_of_lt hd)
  · intro h
    unfold asm_atomic_cas_ptr
    rw [if_neg h]

/-- C19 on the values of the unit test: the 32-bit cell `175` swapped to `200`
and a null pointer cell swapped to `0x12345678`. -/
theorem atomic_cas_spec_witness :
    mem_read32 (asm_atomic_cas32 (mem_write32 (fun _ => 0) 0x7000 175) 0x7000 175 200).2 0x7000
        = 200
    ∧ mem_read64 (asm_atomic_cas_ptr (fun _ => 0) 0x7000 0 0x12345678).2 0x7000 = 0x12345678 :=
  ⟨(atomic_cas_spec (mem_write32 (fun _ => 0) 0x7000 175) 0x7000 175 200 0
      (by decide) (by decide)).1.2.1 (by decide),
   (atomic_cas_spec (fun _ => 0) 0x7000 0 0 0x12345678
      (by decide) (by decide)).2.2.1 (by decide)⟩

/-! ## The range made writable -/

/-- C20 on the code. For the target `0x7FFC` with 4096-byte pages,
`hook_plt_entry_lowlevel` and `GOTBackup::restore` ask for write permission over
`[0x7000, 0x8000)` only, while the 8-byte store covers `0x7FFC .. 0x8003`: the
byte at `0x8000` belongs to the stored word, lies outside the range, and is
overwritten. The constructor of `MemoryProtection` asks for `[0x7000, 0x9000)`
on the same target. -/
theorem single_page_misses_straddling_word :
    (hook_plt_entry_lowlevel 4096 grantAll scenarioMachine 0x7FFC 0x1122334455667788 0).2.calls
        = [⟨0x7000, 4096, 7⟩, ⟨0x7000, 4096, 5⟩]
    ∧ (GOTBackup.restore 4096 grantAll scenarioMachine ⟨0x7FFC, 0x1122334455667788⟩).2.calls
        = [⟨0x7000, 4096, 7⟩, ⟨0x7000, 4096, 5⟩]
    ∧ (0x7FFC ≤ 0x8000 ∧ 0x8000 < 0x7FFC + 8)
    ∧ ¬ (0x8000 < 0x7000 + 4096)
    ∧ scenarioMachine.mem 0x8000 = 0
    ∧ (hook_plt_entry_lowlevel 4096 grantAll scenarioMachine 0x7FFC 0x1122334455667788 0).2.mem
        0x8000 = 0x44
    ∧ (GOTBackup.restore 4096 grantAll scenarioMachine ⟨0x7FFC, 0x1122334455667788⟩).2.mem
        0x8000 = 0x44
    ∧ (MemoryProtection.create 4096 grantAll scenarioMachine 0x7FFC 8 7).2.calls
        = [⟨0x7000, 0x2000, 7⟩] := by
  refine ⟨by decide, by decide, by decide, by decide, by decide, ?_, ?_, by decide⟩
  · rw [hook_plt_entry_lowlevel_mem 4096 grantAll scenarioMachine 0x7FFC _ rfl]
    decide
  · rw [GOTBackup_restore_mem 4096 grantAll scenarioMachine ⟨0x7FFC, 0x1122334455667788⟩
      (by decide)]
    decide

end Magisk
